import Mathlib

/-!
Shallow embedding of the Schnapsen rule engine (src/schnapsen-rs/src/lib.rs and
src/schnapsen-rs/src/models/mod.rs) and of the event journal
(src/schnapsen-duo-server/src/events/event_logger.rs).

Modelling conventions:
* The two `Arc<RwLock<Player>>` slots of the `players` array are addressed by a
  `Bool` index (`false` = `players[0]`, `true` = `players[1]`); the `active`,
  `taken_trump` and `closed_talon` references are stored as indices.  All
  reference-equality (`Arc::ptr_eq`) comparisons in the source compare such
  slots and become index equality; `id`-based comparisons stay on the `id`
  strings.
* Event emission (`notify_pub` / `notify_priv`) has no effect on the engine
  state and is dropped; callback registries are not modelled.
* A command returns `RRes α`: `ok s v` for `Ok(v)` leaving state `s`,
  `err s e` for `Err(e)` leaving state `s` (errors in the source never roll
  back already-performed mutations, so the state at the error point is kept),
  and `panic` for an `unwrap`/indexing panic.
* `u8` arithmetic wraps modulo 256 (release-profile semantics); `usize`
  subtraction in `take_cards_til` wraps modulo 2^64.
* Recursive commands (`draw_card_after_trick`, the trick cascade of
  `play_card`, the binary search of `events_since`) take a fuel argument;
  exhausted fuel is modelled as `panic` and never occurs for the fuel values
  used by the callers modelled here.
-/

/-- `CardVal` of models/mod.rs; the `repr(u8)` discriminants double as
trick-point values. -/
inductive CardVal : Type
  | Ten
  | Jack
  | Queen
  | King
  | Ace
deriving DecidableEq, Repr

/-- The `repr(u8)` value of a `CardVal` (`Ten = 10, Jack = 2, Queen = 3,
King = 4, Ace = 11`). -/
def CardVal.toU8 : CardVal → Nat
  | .Ten => 10
  | .Jack => 2
  | .Queen => 3
  | .King => 4
  | .Ace => 11

/-- `CardSuit` of models/mod.rs (`Hearts = 0, Diamonds = 1, Clubs = 2,
Spades = 3`). -/
inductive CardSuit : Type
  | Hearts
  | Diamonds
  | Clubs
  | Spades
deriving DecidableEq, Repr

/-- `Card` of models/mod.rs. -/
structure Card : Type where
  value : CardVal
  suit : CardSuit
deriving DecidableEq, Repr

/-- `AnnounceType` of models/mod.rs (`Forty = 40`, `Twenty = 20`). -/
inductive AnnounceType : Type
  | Forty
  | Twenty
deriving DecidableEq, Repr

/-- The `repr(u8)` value of an `AnnounceType`. -/
def AnnounceType.toU8 : AnnounceType → Nat
  | .Forty => 40
  | .Twenty => 20

/-- `Announcement` of models/mod.rs; the `[Card; 2]` array is a pair, `.1`
being `cards.first()`. -/
structure Announcement : Type where
  cards : Card × Card
  announce_type : AnnounceType
deriving DecidableEq, Repr

/-- `Player` of models/mod.rs.  A trick `[Card; 2]` is a pair.  `points` is a
`u8` kept below 256 by the wrapping writes. -/
structure Player : Type where
  id : String
  cards : List Card
  playable_cards : List Card
  tricks : List (Card × Card)
  announcements : List Announcement
  announcable : List Announcement
  possible_trump_swap : Option Card
  points : Nat
deriving DecidableEq, Repr

/-- `Player::new` of models/mod.rs. -/
def Player.new (id : String) : Player where
  id := id
  cards := []
  playable_cards := []
  tricks := []
  announcements := []
  announcable := []
  points := 0
  possible_trump_swap := none

/-- `Player::reset` of models/mod.rs: clears `cards`, `tricks`,
`announcements` and `announcable` only. -/
def Player.reset (p : Player) : Player :=
  { p with cards := [], tricks := [], announcements := [], announcable := [] }

/-- The stable sort of a two-element `[Card; 2]` array by the `Ord` instance of
`Card`, which compares by `value` only: swap exactly when the first is
strictly greater. -/
def sortPair (p : Card × Card) : Card × Card :=
  if p.2.value.toU8 < p.1.value.toU8 then (p.2, p.1) else (p.1, p.2)

/-- `contains_card_comb` of models/mod.rs. -/
def contains_card_comb (data : List (Card × Card)) (check : Card × Card) : Bool :=
  (data.map sortPair).any (fun x => x = sortPair check)

/-- `has_announcable` of models/mod.rs. -/
def has_announcable (data : List Announcement) (check : Announcement) : Bool :=
  data.any (fun proposed =>
    proposed.announce_type = check.announce_type ∧
      proposed.cards.1.suit = check.cards.1.suit)

/-- `PlayerError` of lib.rs. -/
inductive PlayerError : Type
  | CantPlay40
  | CantPlay20
  | CantTakeCardDeckEmpty
  | CantPlayCard (card : Card)
  | PlayerNotActive
  | CardNotTrump
  | CantTakeCardRoundNotFinished
  | NoPlayerActive
  | CantTakeAllDeckCards
  | NotAllPlayersHaveTakenCards
  | CantSetActivePlayer
  | CantSwapTrump
  | CantTakeCardPlayerNotActive
  | CantTakeCardHaveAlreadyFive
  | TalonAlreadyClosed
deriving DecidableEq, Repr

/-- The state of `SchnapsenDuo` of lib.rs.  `p0`/`p1` are `players[0]` /
`players[1]`; the shared references `active`, `taken_trump`, `closed_talon`
hold player indices. -/
structure SchnapsenDuo : Type where
  p0 : Player
  p1 : Player
  deck : List Card
  active : Option Bool
  trump : Option Card
  taken_trump : Option (Bool × Card)
  closed_talon : Option Bool
  stack : List Card
deriving DecidableEq, Repr

/-- Read the player slot at an index. -/
def SchnapsenDuo.player (s : SchnapsenDuo) (i : Bool) : Player :=
  if i then s.p1 else s.p0

/-- Mutate the player slot at an index (the source writes through the
player's `RwLock`). -/
def SchnapsenDuo.modifyPlayer (s : SchnapsenDuo) (i : Bool) (f : Player → Player) :
    SchnapsenDuo :=
  if i then { s with p1 := f s.p1 } else { s with p0 := f s.p0 }

/-- Result of a rule-engine command: `ok`/`err` carry the state the engine is
left in, `panic` models an `unwrap` failure (or exhausted fuel). -/
inductive RRes (α : Type) : Type
  | ok (s : SchnapsenDuo) (v : α)
  | err (s : SchnapsenDuo) (e : PlayerError)
  | panic
deriving DecidableEq, Repr

/-- The error of a result, if any. -/
def RRes.errOf {α : Type} : RRes α → Option PlayerError
  | .err _ e => some e
  | _ => none

/-- The state carried at an error, if any. -/
def RRes.errState {α : Type} : RRes α → Option SchnapsenDuo
  | .err s _ => some s
  | _ => none

/-- The state carried at success, if any. -/
def RRes.okState {α : Type} : RRes α → Option SchnapsenDuo
  | .ok s _ => some s
  | _ => none

/-- Whether the result is `Ok`. -/
def RRes.isOk {α : Type} : RRes α → Bool
  | .ok _ _ => true
  | _ => false

/-- The deck produced by `populate_deck` before its uniform shuffle: suits in
`repr` order, each suit contributing the values `(10..12).chain(2..5)`, i.e.
Ten, Ace, Jack, Queen, King. -/
def canonical_deck : List Card :=
  [CardSuit.Hearts, CardSuit.Diamonds, CardSuit.Clubs, CardSuit.Spades].flatMap
    (fun s => [CardVal.Ten, CardVal.Ace, CardVal.Jack, CardVal.Queen, CardVal.King].map
      (fun v => ⟨v, s⟩))

/-- `SchnapsenDuo::new`: the shuffled deck is passed in explicitly (a fresh
match has `deck` some permutation of `canonical_deck`). -/
def SchnapsenDuo.new (deck : List Card) (id0 id1 : String) : SchnapsenDuo where
  p0 := Player.new id0
  p1 := Player.new id1
  deck := deck
  active := none
  trump := none
  taken_trump := none
  closed_talon := none
  stack := []

/-- The index of the other player slot (`get_other_player` /
`get_non_active_player` find the slot that is not pointer-equal). -/
def otherIdx (i : Bool) : Bool := !i

/-- `get_owned_player`: the first player slot whose `id` equals the given
player's `id` (under distinct ids this is the player itself). -/
def get_owned_player (s : SchnapsenDuo) (p : Bool) : Bool :=
  if (s.player false).id = (s.player p).id then false else true

/-- `is_active` compares the active player's id with the given player's id;
`none` models the source's `unwrap` panic when no player is active. -/
def is_active (s : SchnapsenDuo) (p : Bool) : Option Bool :=
  s.active.map (fun a => (s.player a).id = (s.player p).id)

/-- `can_announce_20`: for each suit in `repr` order, the first two hand cards
of that suit whose value is Queen or King, when both exist. -/
def can_announce_20 (s : SchnapsenDuo) (p : Bool) : List (Card × Card) :=
  match s.active with
  | none => []
  | some a =>
    if (s.player a).id = (s.player p).id then
      [CardSuit.Hearts, CardSuit.Diamonds, CardSuit.Clubs, CardSuit.Spades].filterMap
        (fun suit =>
          match (s.player p).cards.filter
              (fun card => card.suit = suit ∧
                (card.value = CardVal.Queen ∨ card.value = CardVal.King)) with
          | c1 :: c2 :: _ => some (c1, c2)
          | _ => none)
    else []

/-- The trump suit used by `get_winner`/`find_playable_cards`/
`can_announce_40`: the face-up trump's suit, else the taken trump's suit;
`none` models the `unwrap` panic when neither exists. -/
def trump_suit_info (s : SchnapsenDuo) : Option CardSuit :=
  match s.trump with
  | some t => some t.suit
  | none => s.taken_trump.map (fun tt => tt.2.suit)

/-- `can_announce_40`: outer `none` models the `unwrap` panic reached when a
marriage exists but neither `trump` nor `taken_trump` holds a card; otherwise
the first 20-marriage in trump suit, if any. -/
def can_announce_40 (s : SchnapsenDuo) (p : Bool) : Option (Option (Card × Card)) :=
  let cards_to_announce := can_announce_20 s p
  if cards_to_announce = [] then some none
  else
    match trump_suit_info s with
    | none => none
    | some ts => some (cards_to_announce.find? (fun pr => pr.1.suit = ts))

/-- `can_swap_trump`: requires an active player, a face-up trump, the player
active (by id), an empty stack and an open talon; then the first Jack of trump
suit in the hand. -/
def can_swap_trump (s : SchnapsenDuo) (p : Bool) : Option Card :=
  match s.active, s.trump with
  | some a, some tr =>
    if ¬((s.player a).id = (s.player p).id) ∨ s.stack ≠ [] ∨ s.closed_talon.isSome then
      none
    else
      (s.player p).cards.find?
        (fun card => card.suit = tr.suit ∧ card.value = CardVal.Jack)
  | _, _ => none

/-- `get_winner`: `enemy` is `players.first()` (the lead), `act` is
`players.last()` (the active player's response).  The third and fourth rules
compare the cards currently on `self.stack`, not the passed cards.  `none`
models the `unwrap` panics (no trump information, or an empty stack reached in
rules three and four). -/
def get_winner (s : SchnapsenDuo) (enemy act : Bool × Card) : Option (Bool × Card) :=
  match trump_suit_info s with
  | none => none
  | some ts =>
    let enemy_is_trump := enemy.2.suit = ts
    let active_is_trump := act.2.suit = ts
    if ¬active_is_trump ∧ enemy_is_trump then some enemy
    else if active_is_trump ∧ ¬enemy_is_trump then some act
    else
      match s.stack.head?, s.stack.getLast? with
      | some first, some last =>
        if last.suit ≠ first.suit then some enemy
        else if first.value.toU8 < last.value.toU8 then some act
        else some enemy
      | _, _ => none

/-- The force-color stage of `find_playable_cards`; `none` models the
`unwrap` panic on missing trump information. -/
def find_playable_step1 (s : SchnapsenDuo) (p : Bool) : Option (List Card) :=
  let hand := (s.player p).cards
  if s.stack ≠ [] ∧ (s.taken_trump.isSome ∨ s.closed_talon.isSome) then
    match trump_suit_info s, s.stack.head? with
    | some ts, some lead =>
      let forcing_color := hand.filter (fun card => card.suit = lead.suit)
      if forcing_color = [] then some (hand.filter (fun card => card.suit = ts))
      else some forcing_color
    | _, _ => none
  else some hand

/-- `find_playable_cards`; `none` models the `unwrap` panics (missing trump
information in the force-color branch, or a missing active player in the
force-trick branch). -/
def find_playable_cards (s : SchnapsenDuo) (p : Bool) : Option (List Card) :=
  let hand := (s.player p).cards
  match find_playable_step1 s p with
  | none => none
  | some playable1 =>
    let playable2 := if playable1 = [] then hand else playable1
    if s.closed_talon.isSome ∧ s.stack ≠ [] then
      match s.active, s.stack.head? with
      | some a, some lead =>
        let gonna_win := playable2.filter (fun card =>
          match get_winner s (otherIdx a, lead) (a, card) with
          | some won => (s.player won.1).id = (s.player p).id
          | none => false)
        -- a `get_winner` panic inside the filter aborts the whole call
        if playable2.any (fun card => get_winner s (otherIdx a, lead) (a, card) = none) then
          none
        else if gonna_win ≠ [] then some gonna_win else some playable2
      | _, _ => none
    else some playable2

/-- The `announcable` list computed by `notify_announcable_props`; `none`
models the `can_announce_40` panic. -/
def notify_announcable_props (s : SchnapsenDuo) (p : Bool) : Option (List Announcement) :=
  let pl := s.player p
  let announcable_cards := can_announce_20 s p
  match can_announce_40 s p with
  | none => none
  | some a40 =>
    let announcements :=
      announcable_cards.map (fun pr => Announcement.mk pr AnnounceType.Twenty) ++
        (match a40 with
         | some pr => [Announcement.mk pr AnnounceType.Forty]
         | none => [])
    let announcable1 := pl.announcable.foldl
      (fun acc announcement =>
        if ¬has_announcable announcements announcement then
          acc.filter (fun x =>
            x.announce_type ≠ announcement.announce_type ∧
              x.cards.1.suit ≠ announcement.cards.1.suit)
        else acc)
      pl.announcable
    some (announcements.foldl
      (fun acc announcement =>
        if pl.announcements.any (fun x => x.cards.1.suit = announcement.cards.1.suit) then
          acc.filter (fun x => x.cards.1.suit ≠ announcement.cards.1.suit)
        else if ¬has_announcable pl.announcable announcement then
          acc ++ [announcement]
        else acc)
      announcable1)

/-- `update_announcable_props`: stores the recomputed `announcable`. -/
def update_announcable_props (s : SchnapsenDuo) (p : Bool) : Option SchnapsenDuo :=
  (notify_announcable_props s p).map
    (fun ann => s.modifyPlayer p (fun pl => { pl with announcable := ann }))

/-- `update_swap_trump`: stores `can_swap_trump` into `possible_trump_swap`
(`notify_swap_trump_check` returns exactly that value). -/
def update_swap_trump (s : SchnapsenDuo) (p : Bool) : SchnapsenDuo :=
  s.modifyPlayer p (fun pl => { pl with possible_trump_swap := can_swap_trump s p })

/-- `update_playable_cards`: stores the recomputed `playable_cards`. -/
def update_playable_cards (s : SchnapsenDuo) (p : Bool) : Option SchnapsenDuo :=
  (find_playable_cards s p).map
    (fun playable => s.modifyPlayer p (fun pl => { pl with playable_cards := playable }))

/-- `make_active`. -/
def make_active (s : SchnapsenDuo) (p : Bool) : SchnapsenDuo :=
  { s with active := some p }

/-- `swap_to`: refresh the derived per-player state, then transfer activity
unless there is no active player or the target is already active. -/
def swap_to (s : SchnapsenDuo) (p : Bool) : Option SchnapsenDuo :=
  match update_announcable_props s p with
  | none => none
  | some s1 =>
    let s2 := update_swap_trump s1 p
    match update_playable_cards s2 p with
    | none => none
    | some s3 =>
      match s3.active with
      | none => some s3
      | some a => if a = p then some s3 else some (make_active s3 p)

/-- `cutt_deck`: errs unless the caller's id matches the active player's id
(panicking when no player is active), then rotates the deck by the clamped
count: `split_at` yields `(back, front)` and the new deck is `front ++ back`. -/
def cutt_deck (s : SchnapsenDuo) (p : Bool) (cards_to_take : Nat) : RRes Unit :=
  match s.active with
  | none => .panic
  | some a =>
    if (s.player p).id ≠ (s.player a).id then .err s .CantTakeCardRoundNotFinished
    else
      let k := if cards_to_take > s.deck.length then s.deck.length else cards_to_take
      .ok { s with deck := s.deck.drop k ++ s.deck.take k } ()

/-- `draw_card`: pop the top (last) deck card. -/
def draw_card (s : SchnapsenDuo) : RRes Card :=
  if s.deck = [] then .err s .CantTakeCardDeckEmpty
  else
    match s.deck.getLast? with
    | none => .panic
    | some card => .ok { s with deck := s.deck.dropLast } card

/-- `take_trump`: record `taken_trump` and hand the face-up trump over
(`trump.take().unwrap()` panics when there is none). -/
def take_trump (s : SchnapsenDuo) (p : Bool) : RRes Card :=
  match s.trump with
  | none => .panic
  | some t => .ok { s with trump := none, taken_trump := some (p, t) } t

/-- `draw_card_after_trick`.  The source's `if !self.stack.is_empty() {}`
check has an empty body and is therefore omitted; there is no active-player
check.  The mutual drawing recursion is bounded by fuel (exhaustion is
`panic`; the callers modelled here always provide enough). -/
def draw_card_after_trick : Nat → SchnapsenDuo → Bool → RRes Card
  | 0, _, _ => .panic
  | fuel + 1, s, p =>
    if (s.player p).cards.length = 5 then .err s .CantTakeCardHaveAlreadyFive
    else if s.trump = none then .err s .CantTakeCardDeckEmpty
    else if s.closed_talon.isSome then .err s .TalonAlreadyClosed
    else
      let drawn : RRes Card :=
        match draw_card s with
        | .ok s1 card => .ok s1 card
        | .err s1 .CantTakeCardDeckEmpty => take_trump s1 p
        | .err s1 e => .err s1 e
        | .panic => .panic
      match drawn with
      | .panic => .panic
      | .err s1 e => .err s1 e
      | .ok s1 card =>
        let s2 := s1.modifyPlayer p (fun pl => { pl with cards := pl.cards ++ [card] })
        let new := otherIdx p
        let card_len := (s2.player new).cards.length
        if card_len < 5 ∧ s2.trump.isSome then
          match draw_card_after_trick fuel s2 new with
          | .ok s3 _ => .ok s3 card
          | .err s3 e => .err s3 e
          | .panic => .panic
        else
          match swap_to s2 new with
          | none => .panic
          | some s3 => .ok s3 card

/-- `close_talon`. -/
def close_talon (s : SchnapsenDuo) (p : Bool) : RRes Unit :=
  match s.active with
  | none => .err s .PlayerNotActive
  | some a =>
    if ¬((s.player a).id = (s.player p).id) ∨ s.deck = [] ∨ s.stack ≠ [] then
      .err s .PlayerNotActive
    else if s.closed_talon.isSome then .err s .TalonAlreadyClosed
    else .ok { s with closed_talon := some (get_owned_player s p) } ()

/-- Wrapping `usize` subtraction of 1 (release profile); for an empty deck
`deck.len() - 1` wraps to `2^64 - 1`. -/
def usize_sub1 (n : Nat) : Nat := (n + (2 ^ 64 - 1)) % 2 ^ 64

/-- `take_cards_til`: drains the first `idx` cards out of the deck and returns
them; they are not added to any hand. -/
def take_cards_til (s : SchnapsenDuo) (p : Bool) (idx : Nat) : RRes (List Card) :=
  if usize_sub1 s.deck.length ≤ idx then .err s .CantTakeAllDeckCards
  else if s.deck = [] then .err s .CantTakeCardDeckEmpty
  else .ok { s with deck := s.deck.drop idx } (s.deck.take idx)

/-- `set_active_player`. -/
def set_active_player (s : SchnapsenDuo) (p : Bool) : RRes Unit :=
  if s.active.isSome then .err s .CantSetActivePlayer
  else .ok (make_active s p) ()

/-- `do_cards`: pop the top deck card into the player's hand (`none` models
the pop `unwrap` panic on an empty deck). -/
def do_cards (s : SchnapsenDuo) (p : Bool) : Option SchnapsenDuo :=
  match s.deck.getLast? with
  | none => none
  | some card =>
    some (({ s with deck := s.deck.dropLast }).modifyPlayer p
      (fun pl => { pl with cards := pl.cards ++ [card] }))

/-- `n` consecutive `do_cards` into the same hand (the `for _ in 0..n` loops
of `distribute_cards`). -/
def deal : Nat → SchnapsenDuo → Bool → Option SchnapsenDuo
  | 0, s, _ => some s
  | n + 1, s, p =>
    match do_cards s p with
    | none => none
    | some s1 => deal n s1 p

/-- The per-player derived-state refresh at the end of `distribute_cards`:
`update_playable_cards`, then `update_swap_trump`, then
`update_announcable_props`. -/
def refresh_props (s : SchnapsenDuo) (p : Bool) : Option SchnapsenDuo :=
  match update_playable_cards s p with
  | none => none
  | some s1 =>
    let s2 := update_swap_trump s1 p
    update_announcable_props s2 p

/-- `distribute_cards`: deal 3 to each player starting with the active one,
reveal the trump, deal 2 more to each, then refresh each player's derived
state in the same order.  (The final lookup of the active player's private
callbacks is event plumbing and is not modelled.) -/
def distribute_cards (s : SchnapsenDuo) : RRes Unit :=
  match s.active with
  | none => .err s .NoPlayerActive
  | some a =>
    let first := if a = false then false else true
    let second := otherIdx first
    match deal 3 s first with
    | none => .panic
    | some s1 =>
      match deal 3 s1 second with
      | none => .panic
      | some s2 =>
        match s2.deck.getLast? with
        | none => .panic
        | some trump =>
          let s3 := { s2 with deck := s2.deck.dropLast, trump := some trump }
          match deal 2 s3 first with
          | none => .panic
          | some s4 =>
            match deal 2 s4 second with
            | none => .panic
            | some s5 =>
              match refresh_props s5 first with
              | none => .panic
              | some s6 =>
                match refresh_props s6 second with
                | none => .panic
                | some s7 => .ok s7 ()

/-- `swap_trump`: on success only the `trump` field is reassigned to the
offered Jack; the hand is not touched (the old trump card is merely returned
to the caller). -/
def swap_trump (s : SchnapsenDuo) (p : Bool) (card : Card) : RRes Card :=
  match can_swap_trump s p with
  | some swap =>
    if swap ≠ card then .err s .CantSwapTrump
    else
      match s.trump with
      | none => .panic
      | some trump => .ok { s with trump := some card } trump
  | none => .err s .CantSwapTrump

/-- `announce_40`: no state change; the announcement is only returned (and
emitted). -/
def announce_40 (s : SchnapsenDuo) (p : Bool) : RRes Announcement :=
  match can_announce_40 s p with
  | none => .panic
  | some none => .err s .CantPlay40
  | some (some pr) => .ok s ⟨pr, AnnounceType.Forty⟩

/-- `announce_20`: no state change; the announcement is only returned (and
emitted). -/
def announce_20 (s : SchnapsenDuo) (p : Bool) (cards : Card × Card) : RRes Announcement :=
  let announce := can_announce_20 s p
  if announce = [] ∨ ¬contains_card_comb announce cards then .err s .CantPlay20
  else .ok s ⟨cards, AnnounceType.Twenty⟩

/-- The per-player raw round score of `update_points`: announcement values
(counted only when the player has at least one trick) plus the card values of
all trick cards, with wrapping `u8` addition. -/
def compute_points (s : SchnapsenDuo) (p : Bool) : Nat :=
  let pl := s.player p
  let init := (pl.announcements.foldl
    (fun acc a => (acc + (if pl.tricks ≠ [] then a.announce_type.toU8 else 0)) % 256) 0)
  pl.tricks.foldl
    (fun acc t => ((acc + t.1.value.toU8) % 256 + t.2.value.toU8) % 256) init

/-- `update_points`: winner is `max_by_key` (the **last** maximal element of
`[players[0], players[1]]`), loser is `min_by_key` (the **first** minimal
element).  Only events are emitted; the state is unchanged. -/
def update_points (s : SchnapsenDuo) : (Bool × Nat) × (Bool × Nat) :=
  let pts0 := compute_points s false
  let pts1 := compute_points s true
  let winner := if pts0 ≤ pts1 then (true, pts1) else (false, pts0)
  let loser := if pts0 ≤ pts1 then (false, pts0) else (true, pts1)
  (winner, loser)

/-- The scoring tail of `update_finish_round`: convert to bummerl points, add
them to the winning slot's player, emit `Result`, reset both players (and
possibly emit `FinalResult`). -/
def finish_round_scoring (s : SchnapsenDuo) (w l : Bool) (lp : Nat) : SchnapsenDuo :=
  let points := if lp = 0 then 3 else if 33 ≤ lp then 2 else 1
  let s1 := s.modifyPlayer w (fun pl => { pl with points := (pl.points + points) % 256 })
  (s1.modifyPlayer w Player.reset).modifyPlayer l Player.reset

/-- `update_finish_round`.  The source's return type is `Result` but every
path returns `Ok(())`, so the embedding returns the state directly.  When the
raw winner is below 66 and no hand is empty the state is left unchanged.  On
exhaustion the winner absorbs the loser's points, a closed talon always adds
10 to the winner's absorbed total, and the winner/loser **players** are
swapped when the closer is the winner (or, with no close, when the last trick
was not taken by the winner). -/
def update_finish_round (s : SchnapsenDuo) (last_trick : Bool) : SchnapsenDuo :=
  let wl := update_points s
  let w := wl.1.1
  let wp := wl.1.2
  let l := wl.2.1
  let lp := wl.2.2
  if wp < 66 then
    if (s.player false).cards = [] ∨ (s.player true).cards = [] then
      -- winner.points += loser.points; loser.points = 0
      match s.closed_talon with
      | some closer =>
        -- winner.points += 10; swap players when the closer is the winner
        if closer = w then finish_round_scoring s l w 0
        else finish_round_scoring s w l 0
      | none =>
        if last_trick ≠ w then finish_round_scoring s l w 0
        else finish_round_scoring s w l 0
    else s
  else finish_round_scoring s w l lp

/-- Whether `update_finish_round` will reach its scoring tail (and reset the
players) at the given state. -/
def round_ends (s : SchnapsenDuo) : Prop :=
  66 ≤ (update_points s).1.2 ∨
    (s.player false).cards = [] ∨ (s.player true).cards = []

instance (s : SchnapsenDuo) : Decidable (round_ends s) := by
  unfold round_ends; infer_instance

/-- The first half of `handle_trick`: determine the trick winner, move the two
stack cards into the winner's tricks (`[stack.pop(), stack.pop()]`, i.e. the
response first).  `none` models the `unwrap`/`try_into` panics (missing
active player, missing trump information, or a stack not of length two). -/
def trick_state (s : SchnapsenDuo) : Option (SchnapsenDuo × Bool) :=
  match s.active with
  | none => none
  | some a =>
    match s.stack.head?, s.stack.getLast? with
    | some first, some last =>
      match get_winner s (otherIdx a, first) (a, last) with
      | none => none
      | some won =>
        if s.stack.length = 2 then
          some ((({ s with stack := [] }).modifyPlayer won.1
            (fun pl => { pl with tricks := pl.tricks ++ [(last, first)] })), won.1)
        else none
    | _, _ => none

/-- `handle_trick`: award the trick, run `update_finish_round`, then either
continue drawing (deck non-empty, talon open) or transfer activity to the
winner. -/
def handle_trick (fuel : Nat) (s : SchnapsenDuo) : RRes Unit :=
  match trick_state s with
  | none => .panic
  | some (s2, won) =>
    let s3 := update_finish_round s2 won
    if s3.deck ≠ [] ∧ s3.closed_talon = none then
      match draw_card_after_trick fuel s3 won with
      | .ok s4 _ => .ok s4 ()
      | .err s4 e => .err s4 e
      | .panic => .panic
    else
      match swap_to s3 won with
      | none => .panic
      | some s4 => .ok s4 ()

/-- `play_card`: validate activity and playability, move the card from the
hand (and from `playable_cards`) onto the stack, then resolve the trick or
pass activity to the opponent. -/
def play_card (fuel : Nat) (s : SchnapsenDuo) (p : Bool) (card : Card) : RRes Unit :=
  match s.active with
  | none => .err s .PlayerNotActive
  | some a =>
    if ¬((s.player a).id = (s.player p).id) then .err s .PlayerNotActive
    else if card ∉ (s.player p).playable_cards then .err s (.CantPlayCard card)
    else
      let s1 := s.modifyPlayer p (fun pl =>
        { pl with
          cards := pl.cards.filter (fun x => x ≠ card),
          playable_cards := pl.playable_cards.filter (fun x => x ≠ card) })
      let s2 := { s1 with stack := s1.stack ++ [card] }
      if s2.stack.length = 2 then handle_trick fuel s2
      else
        match swap_to s2 (otherIdx a) with
        | none => .panic
        | some s3 =>
          match s3.active with
          | none => .panic
          | some _ => .ok s3 ()

/-- Whether a `play_card` call keeps the round alive: either it does not
complete a trick, or the state handed to `update_finish_round` does not end
the round.  (Error and panic paths count as keeping the round alive.) -/
def play_keeps_round (s : SchnapsenDuo) (p : Bool) (card : Card) : Prop :=
  match s.active with
  | none => True
  | some a =>
    if ¬((s.player a).id = (s.player p).id) then True
    else if card ∉ (s.player p).playable_cards then True
    else
      let s1 := s.modifyPlayer p (fun pl =>
        { pl with
          cards := pl.cards.filter (fun x => x ≠ card),
          playable_cards := pl.playable_cards.filter (fun x => x ≠ card) })
      let s2 := { s1 with stack := s1.stack ++ [card] }
      if s2.stack.length = 2 then
        match trick_state s2 with
        | none => True
        | some (st, _) => ¬round_ends st
      else True

/-- `TimedEvent` of schnapsen-duo-server/src/events/mod.rs (`timestamp` is a
`u64`). -/
structure TimedEvent (α : Type) : Type where
  event : α
  timestamp : Nat
deriving DecidableEq, Repr

/-- `EventLogger` of event_logger.rs: journal entries are
`(scope, timed-event)` pairs, scope `none` meaning public and `some id`
meaning private for that player. -/
structure EventLogger (α : Type) : Type where
  events : List (Option String × TimedEvent α)
deriving DecidableEq, Repr

/-- The standard-library binary search used by
`binary_search_by_key(&timestamp, ..)`: `Sum.inl mid` is `Ok(mid)` (an exact
key match), `Sum.inr left` is `Err(left)`.  The loop is bounded by fuel
(`events_since` always provides enough; exhaustion returns the current
`Err` index). -/
def bin_search (keys : List Nat) (target : Nat) : Nat → Nat → Nat → Sum Nat Nat
  | 0, left, _ => .inr left
  | fuel + 1, left, right =>
    if left < right then
      let mid := left + (right - left) / 2
      let k := keys.getD mid 0
      if k < target then bin_search keys target fuel (mid + 1) right
      else if target < k then bin_search keys target fuel left mid
      else .inl mid
    else .inr left

/-- The index selection and suffix of `events_since`, over the already
filtered `user_events`: binary-search the timestamp; on a miss fall back to
the position of the first entry with `timestamp ≥ t`, **or to 0 when there is
none**; return the suffix from that index. -/
def events_since_filtered {α : Type} (user_events : List (Option String × TimedEvent α))
    (timestamp : Nat) : List (TimedEvent α) :=
  let find_first :=
    match user_events.findIdx? (fun event => timestamp ≤ event.2.timestamp) with
    | some i => i
    | none => 0
  let idx :=
    match bin_search (user_events.map (fun e => e.2.timestamp)) timestamp
        (user_events.length + 1) 0 user_events.length with
    | .inl i => i
    | .inr _ => find_first
  (user_events.drop idx).map (fun x => x.2)

/-- `events_since`: filter to the viewer's scope (public entries or private
entries addressed to the viewer), then select the suffix. -/
def events_since {α : Type} (lg : EventLogger α) (timestamp : Nat)
    (user_id : Option String) : List (TimedEvent α) :=
  events_since_filtered
    (lg.events.filter
      (fun timed_event => timed_event.1 = none ∨ timed_event.1 = user_id))
    timestamp

/-- All cards tracked by the conservation equation, as a multiset: the two
hands, the deck, the stack, the face-up trump and both trick piles. -/
def all_cards (s : SchnapsenDuo) : Multiset Card :=
  ↑(s.player false).cards + ↑(s.player true).cards + ↑s.deck + ↑s.stack +
    ↑s.trump.toList +
    ↑((s.player false).tricks.flatMap (fun t => [t.1, t.2])) +
    ↑((s.player true).tricks.flatMap (fun t => [t.1, t.2]))

/-- The conservation sum of §3 of the spec:
`|hand(p1)| + |hand(p2)| + |deck| + |stack| + [trump? 1 : 0] +
 2·|tricks(p1)| + 2·|tricks(p2)|`. -/
def cons_sum (s : SchnapsenDuo) : Nat :=
  (s.player false).cards.length + (s.player true).cards.length +
    s.deck.length + s.stack.length + (if s.trump.isSome then 1 else 0) +
    2 * (s.player false).tricks.length + 2 * (s.player true).tricks.length

/-- Auxiliary invariant: every stored `playable_cards` entry is in the
corresponding hand. -/
def playable_sub (s : SchnapsenDuo) : Prop :=
  (∀ c ∈ (s.player false).playable_cards, c ∈ (s.player false).cards) ∧
    (∀ c ∈ (s.player true).playable_cards, c ∈ (s.player true).cards)

/-- States reachable from a fresh match by successful commands, excluding
`take_cards_til` and `swap_trump`, and with every `play_card` keeping the
round alive (a round-ending trick clears both hands and trick piles). -/
inductive ReachLive : SchnapsenDuo → Prop
  | fresh (deck : List Card) (id0 id1 : String) (hperm : deck.Perm canonical_deck) :
      ReachLive (SchnapsenDuo.new deck id0 id1)
  | set_active {s s' : SchnapsenDuo} {p : Bool} (h : ReachLive s)
      (hok : set_active_player s p = .ok s' ()) : ReachLive s'
  | cutt {s s' : SchnapsenDuo} {p : Bool} {k : Nat} (h : ReachLive s)
      (hok : cutt_deck s p k = .ok s' ()) : ReachLive s'
  | distribute {s s' : SchnapsenDuo} (h : ReachLive s)
      (hok : distribute_cards s = .ok s' ()) : ReachLive s'
  | close {s s' : SchnapsenDuo} {p : Bool} (h : ReachLive s)
      (hok : close_talon s p = .ok s' ()) : ReachLive s'
  | ann20 {s s' : SchnapsenDuo} {p : Bool} {pr : Card × Card} {a : Announcement}
      (h : ReachLive s) (hok : announce_20 s p pr = .ok s' a) : ReachLive s'
  | ann40 {s s' : SchnapsenDuo} {p : Bool} {a : Announcement} (h : ReachLive s)
      (hok : announce_40 s p = .ok s' a) : ReachLive s'
  | draw {fuel : Nat} {s s' : SchnapsenDuo} {p : Bool} {c : Card} (h : ReachLive s)
      (hok : draw_card_after_trick fuel s p = .ok s' c) : ReachLive s'
  | play {fuel : Nat} {s s' : SchnapsenDuo} {p : Bool} {c : Card} (h : ReachLive s)
      (hok : play_card fuel s p c = .ok s' ()) (hlive : play_keeps_round s p c) :
      ReachLive s'

/-- The inductive invariant behind the conservation equation: the tracked
cards form exactly the 20-card deck (as a multiset), stored `playable_cards`
are hand cards, and while a face-up trump exists the deck holds at most 9
cards (so a second `distribute_cards` cannot silently drop the old trump). -/
def engine_inv (s : SchnapsenDuo) : Prop :=
  all_cards s = (canonical_deck : Multiset Card) ∧ playable_sub s ∧
    (s.trump.isSome = true → s.deck.length ≤ 9)

/-- A state with player 0 active, a non-empty stack, an almost-full hand for
player 1 and one deck card left: all circumstances under which the spec
requires `draw_card_after_trick(p1)` to fail. -/
def drawBugState : SchnapsenDuo where
  p0 := { Player.new "a" with
    cards := [⟨.Jack, .Spades⟩, ⟨.Queen, .Spades⟩, ⟨.King, .Spades⟩,
      ⟨.Ten, .Spades⟩, ⟨.Ace, .Diamonds⟩] }
  p1 := { Player.new "b" with
    cards := [⟨.Jack, .Clubs⟩, ⟨.Queen, .Clubs⟩, ⟨.King, .Clubs⟩, ⟨.Ten, .Clubs⟩] }
  deck := [⟨.Ten, .Hearts⟩]
  active := some false
  trump := some ⟨.Ace, .Hearts⟩
  taken_trump := none
  closed_talon := none
  stack := [⟨.Ace, .Spades⟩]

/-- A state where player 0 is active while player 1 holds playable cards. -/
def inactivePlayState : SchnapsenDuo where
  p0 := { Player.new "a" with
    cards := [⟨.Ace, .Diamonds⟩], playable_cards := [⟨.Ace, .Diamonds⟩] }
  p1 := { Player.new "b" with
    cards := [⟨.King, .Clubs⟩, ⟨.Ten, .Clubs⟩], playable_cards := [⟨.King, .Clubs⟩] }
  deck := [⟨.Ten, .Hearts⟩, ⟨.Jack, .Diamonds⟩]
  active := some false
  trump := some ⟨.Ace, .Hearts⟩
  taken_trump := none
  closed_talon := none
  stack := []

/-- A state in which the active player 0 can legally answer the trick lead,
but the trick winner (player 1) already holds five cards, so the post-trick
draw fails after the trick has been resolved. -/
def lateErrState : SchnapsenDuo where
  p0 := { Player.new "a" with
    cards := [⟨.Queen, .Clubs⟩, ⟨.King, .Diamonds⟩],
    playable_cards := [⟨.Queen, .Clubs⟩] }
  p1 := { Player.new "b" with
    cards := [⟨.Jack, .Spades⟩, ⟨.Queen, .Spades⟩, ⟨.King, .Spades⟩,
      ⟨.Ten, .Spades⟩, ⟨.Ace, .Spades⟩] }
  deck := [⟨.Ten, .Diamonds⟩]
  active := some false
  trump := some ⟨.Ace, .Hearts⟩
  taken_trump := none
  closed_talon := none
  stack := [⟨.Jack, .Hearts⟩]

/-- A state in which player 0 is active and holds the hearts marriage (among
five playable cards). -/
def announceState : SchnapsenDuo where
  p0 := { Player.new "a" with
    cards := [⟨.King, .Hearts⟩, ⟨.Queen, .Hearts⟩, ⟨.Ace, .Spades⟩,
      ⟨.Ten, .Spades⟩, ⟨.Jack, .Diamonds⟩],
    playable_cards := [⟨.King, .Hearts⟩, ⟨.Queen, .Hearts⟩, ⟨.Ace, .Spades⟩,
      ⟨.Ten, .Spades⟩, ⟨.Jack, .Diamonds⟩] }
  p1 := Player.new "b"
  deck := [⟨.Ten, .Diamonds⟩, ⟨.Ace, .Diamonds⟩]
  active := some false
  trump := some ⟨.Ace, .Diamonds⟩
  taken_trump := none
  closed_talon := none
  stack := []

/-- A state in which player 0 is active and holds the Jack of the trump suit
with the stack empty and the talon open, so `swap_trump` succeeds. -/
def swapState : SchnapsenDuo where
  p0 := { Player.new "a" with cards := [⟨.Jack, .Hearts⟩, ⟨.Ten, .Clubs⟩] }
  p1 := { Player.new "b" with cards := [⟨.King, .Clubs⟩] }
  deck := [⟨.Ten, .Diamonds⟩]
  active := some false
  trump := some ⟨.Ace, .Hearts⟩
  taken_trump := none
  closed_talon := none
  stack := []

/-- An exhausted round: both hands empty, player 0 leads 21 raw points to 5,
and player 0 (the raw-points winner) had closed the talon. -/
def exhaustState : SchnapsenDuo where
  p0 := { Player.new "a" with tricks := [(⟨.Ace, .Hearts⟩, ⟨.Ten, .Hearts⟩)] }
  p1 := { Player.new "b" with tricks := [(⟨.Jack, .Clubs⟩, ⟨.Queen, .Clubs⟩)] }
  deck := []
  active := some false
  trump := none
  taken_trump := some (false, ⟨.Ace, .Diamonds⟩)
  closed_talon := some false
  stack := []

/-- A mid-round state with player 0 active and a three-card deck, used for
`cut_deck`. -/
def cutState : SchnapsenDuo where
  p0 := { Player.new "a" with cards := [⟨.Ace, .Diamonds⟩] }
  p1 := { Player.new "b" with cards := [⟨.King, .Clubs⟩] }
  deck := [⟨.Ten, .Hearts⟩, ⟨.Jack, .Diamonds⟩, ⟨.Queen, .Spades⟩]
  active := some false
  trump := some ⟨.Ace, .Hearts⟩
  taken_trump := none
  closed_talon := none
  stack := []

/-- A fresh match over the unshuffled deck. -/
def freshMatch : SchnapsenDuo := SchnapsenDuo.new canonical_deck "a" "b"

/-- A one-entry public journal whose only timestamp is 5. -/
def smallLog : EventLogger Unit := ⟨[(none, ⟨(), 5⟩)]⟩

@[simp]
theorem player_false (s : SchnapsenDuo) : s.player false = s.p0 := rfl

@[simp]
theorem player_true (s : SchnapsenDuo) : s.player true = s.p1 := rfl

@[simp]
theorem modifyPlayer_false (s : SchnapsenDuo) (f : Player → Player) :
    s.modifyPlayer false f = { s with p0 := f s.p0 } := rfl

@[simp]
theorem modifyPlayer_true (s : SchnapsenDuo) (f : Player → Player) :
    s.modifyPlayer true f = { s with p1 := f s.p1 } := rfl

theorem player_modify_same (s : SchnapsenDuo) (i : Bool) (f : Player → Player) :
    (s.modifyPlayer i f).player i = f (s.player i) := by
  cases i <;> rfl

theorem player_modify_other (s : SchnapsenDuo) (i : Bool) (f : Player → Player) :
    (s.modifyPlayer i f).player (!i) = s.player (!i) := by
  cases i <;> rfl

/-- C10: whenever no active player is set, `cut_deck(p, k)` panics (it
dereferences the absent active player with `unwrap`) instead of returning a
`PlayerError`; the panic branch is reachable at the public interface. -/
theorem c10_cutt_deck_panics (s : SchnapsenDuo) (p : Bool) (k : Nat)
    (h : s.active = none) : cutt_deck s p k = .panic := by
  unfold cutt_deck
  rw [h]

theorem c10_witness : cutt_deck freshMatch false 3 = .panic :=
  c10_cutt_deck_panics freshMatch false 3 rfl

/-- C6: at a state where the caller is not the active player and the stack is
non-empty (with a hand below five cards, a face-up trump, an open talon and a
non-empty deck), `draw_card_after_trick` succeeds: the code checks neither the
active player nor the stack (its stack test has an empty body). -/
theorem c6_draw_ignores_preconditions :
    (draw_card_after_trick 20 drawBugState true).isOk = true ∧
    drawBugState.stack ≠ [] ∧
    drawBugState.active = some false ∧
    (drawBugState.player true).id ≠ (drawBugState.player false).id ∧
    (drawBugState.player true).cards.length < 5 ∧
    drawBugState.trump.isSome = true ∧
    drawBugState.closed_talon = none := by
  decide

theorem rot_perm (l : List Card) (m : Nat) : (l.drop m ++ l.take m).Perm l := by
  have h1 : (l.drop m ++ l.take m).Perm (l.take m ++ l.drop m) := List.perm_append_comm
  rwa [List.take_append_drop] at h1

theorem cutt_deck_eq (s : SchnapsenDuo) (p : Bool) (k : Nat) (a : Bool)
    (ha : s.active = some a) :
    cutt_deck s p k =
      if (s.player p).id ≠ (s.player a).id then .err s .CantTakeCardRoundNotFinished
      else .ok { s with
        deck := s.deck.drop (min k s.deck.length) ++ s.deck.take (min k s.deck.length) } () := by
  have hmin : (if s.deck.length < k then s.deck.length else k) = min k s.deck.length := by
    rw [Nat.min_def]; split <;> split <;> omega
  simp only [cutt_deck, ha, gt_iff_lt]
  rw [hmin]

/-- C7 (amended): given an active player, `cut_deck(p, k)` succeeds exactly
when `p` **is** the active player (by id); on success the deck is rotated by
`k` clamped to the deck size, preserving length and multiset, and nothing
else changes. -/
theorem c7_cutt_deck_amended (s : SchnapsenDuo) (p : Bool) (k : Nat) (a : Bool)
    (ha : s.active = some a) :
    ((cutt_deck s p k).isOk = true ↔ (s.player p).id = (s.player a).id) ∧
    (∀ s' v, cutt_deck s p k = .ok s' v →
      s' = { s with
        deck := s.deck.drop (min k s.deck.length) ++ s.deck.take (min k s.deck.length) } ∧
      s'.deck.Perm s.deck ∧ s'.deck.length = s.deck.length) := by
  rw [cutt_deck_eq s p k a ha]
  by_cases hid : (s.player p).id = (s.player a).id
  · rw [if_neg (by simp [hid])]
    refine ⟨by simp [RRes.isOk, hid], ?_⟩
    intro s' v h
    cases h
    refine ⟨rfl, rot_perm _ _, ((rot_perm s.deck (min k s.deck.length)).length_eq : _)⟩
  · rw [if_pos (by simpa using hid)]
    refine ⟨by simp [RRes.isOk, hid], ?_⟩
    intro s' v h
    cases h

theorem c7_witness : (cutt_deck cutState false 1).isOk = true :=
  ((c7_cutt_deck_amended cutState false 1 false rfl).1).mpr rfl

/-- C7 counterexample: at `cutState` player 0 is active; `cut_deck` by the
non-active player 1 fails while `cut_deck` by the active player 0 succeeds,
refuting "succeeds exactly when `p` is not the active player". -/
theorem c7_claim_false :
    cutState.active = some false ∧
    (cutt_deck cutState true 1).errOf = some .CantTakeCardRoundNotFinished ∧
    (cutt_deck cutState false 1).isOk = true := by
  decide

theorem announce_20_ok_eq (s : SchnapsenDuo) (p : Bool) (pr : Card × Card)
    (s' : SchnapsenDuo) (a : Announcement) (h : announce_20 s p pr = .ok s' a) :
    s' = s ∧ a = ⟨pr, AnnounceType.Twenty⟩ := by
  simp only [announce_20] at h
  split at h
  · cases h
  · cases h
    exact ⟨rfl, rfl⟩

/-- C5 (amended): a successful `announce_20(p, pair)` returns the Twenty
announcement of that pair (and emits it), but leaves the rule-engine state
entirely unchanged: nothing is recorded in `p`'s state and `playable_cards`
is not restricted. -/
theorem c5_announce_20_amended (s : SchnapsenDuo) (p : Bool) (pr : Card × Card)
    (s' : SchnapsenDuo) (a : Announcement) (h : announce_20 s p pr = .ok s' a) :
    s' = s ∧ a = ⟨pr, AnnounceType.Twenty⟩ :=
  announce_20_ok_eq s p pr s' a h

theorem c5_witness :
    announceState = announceState ∧
    (⟨(⟨.King, .Hearts⟩, ⟨.Queen, .Hearts⟩), AnnounceType.Twenty⟩ : Announcement) =
      ⟨(⟨.King, .Hearts⟩, ⟨.Queen, .Hearts⟩), AnnounceType.Twenty⟩ :=
  c5_announce_20_amended announceState false (⟨.King, .Hearts⟩, ⟨.Queen, .Hearts⟩)
    announceState ⟨(⟨.King, .Hearts⟩, ⟨.Queen, .Hearts⟩), AnnounceType.Twenty⟩ (by decide)

/-- C5 counterexample: at `announceState` the hearts marriage is legally
announced, yet the resulting state is the input state itself: the
announcement list stays empty (so the same suit could be announced again) and
`playable_cards` keeps all five cards instead of the announced two. -/
theorem c5_claim_false :
    announce_20 announceState false (⟨.King, .Hearts⟩, ⟨.Queen, .Hearts⟩) =
      .ok announceState ⟨(⟨.King, .Hearts⟩, ⟨.Queen, .Hearts⟩), AnnounceType.Twenty⟩ ∧
    (announceState.player false).announcements = [] ∧
    (announceState.player false).playable_cards.length = 5 := by
  decide

/-- C4: at `swapState` the trump swap succeeds and the resulting trump is the
Jack of trump the player held, but the player's hand is unchanged: the Jack
remains in the hand (now duplicated as the trump) and the old trump card
leaves the engine state entirely (it is only returned to the caller), so the
combined hand+trump multiset is not preserved. -/
theorem c4_swap_trump_loses_cards :
    swap_trump swapState false ⟨.Jack, .Hearts⟩ =
      .ok { swapState with trump := some ⟨.Jack, .Hearts⟩ } ⟨.Ace, .Hearts⟩ ∧
    (swapState.player false).cards = [⟨.Jack, .Hearts⟩, ⟨.Ten, .Clubs⟩] ∧
    ((swap_trump swapState false ⟨.Jack, .Hearts⟩).okState.map
      (fun s => (s.player false).cards)) = some [⟨.Jack, .Hearts⟩, ⟨.Ten, .Clubs⟩] := by
  decide

theorem update_points_ne (s : SchnapsenDuo) :
    (update_points s).1.1 ≠ (update_points s).2.1 := by
  unfold update_points
  dsimp only
  split <;> simp

theorem finish_round_scoring_spec (s : SchnapsenDuo) (a b : Bool) (hab : a ≠ b)
    (lp : Nat) :
    ((finish_round_scoring s a b lp).player a).points =
      ((s.player a).points + (if lp = 0 then 3 else if 33 ≤ lp then 2 else 1)) % 256 ∧
    ((finish_round_scoring s a b lp).player b).points = (s.player b).points ∧
    (∀ i, ((finish_round_scoring s a b lp).player i).cards = [] ∧
      ((finish_round_scoring s a b lp).player i).tricks = []) := by
  cases a <;> cases b <;> simp at hab <;>
    refine ⟨?_, ?_, fun i => ?_⟩ <;> first
      | rfl
      | (cases i <;> exact ⟨rfl, rfl⟩)

/-- C2 (amended): on round end by hand exhaustion with the raw-points winner
below 66, the winner absorbs the loser's points (so the bummerl award is
always 3); a closed talon always adds 10 to the winner's absorbed total (with
no further effect on the award), and the winner and loser **players** are
swapped exactly when the closer is the points-winner (the closer forfeits);
with no close they are swapped exactly when the last trick was not taken by
the points-winner.  Both players' per-round state is then reset. -/
theorem c2_exhaustion_amended (s : SchnapsenDuo) (last_trick w l : Bool) (wp lp : Nat)
    (hup : update_points s = ((w, wp), (l, lp)))
    (hlt : wp < 66)
    (hex : (s.player false).cards = [] ∨ (s.player true).cards = []) :
    (∀ closer, s.closed_talon = some closer → closer = w →
      ((update_finish_round s last_trick).player l).points =
          ((s.player l).points + 3) % 256 ∧
        ((update_finish_round s last_trick).player w).points = (s.player w).points) ∧
    (∀ closer, s.closed_talon = some closer → closer ≠ w →
      ((update_finish_round s last_trick).player w).points =
          ((s.player w).points + 3) % 256 ∧
        ((update_finish_round s last_trick).player l).points = (s.player l).points) ∧
    (s.closed_talon = none → last_trick ≠ w →
      ((update_finish_round s last_trick).player l).points =
          ((s.player l).points + 3) % 256 ∧
        ((update_finish_round s last_trick).player w).points = (s.player w).points) ∧
    (s.closed_talon = none → last_trick = w →
      ((update_finish_round s last_trick).player w).points =
          ((s.player w).points + 3) % 256 ∧
        ((update_finish_round s last_trick).player l).points = (s.player l).points) ∧
    (∀ i, ((update_finish_round s last_trick).player i).cards = [] ∧
      ((update_finish_round s last_trick).player i).tricks = []) := by
  have hwl : w ≠ l := by
    have h := update_points_ne s
    rw [hup] at h
    exact h
  rcases hcl : s.closed_talon with _ | closer
  · have hufr : update_finish_round s last_trick =
        if last_trick ≠ w then finish_round_scoring s l w 0
        else finish_round_scoring s w l 0 := by
      unfold update_finish_round
      rw [hup, hcl]
      dsimp only
      rw [if_pos hlt, if_pos hex]
    by_cases hltw : last_trick = w
    · rw [if_neg (by simpa using hltw)] at hufr
      have hspec := finish_round_scoring_spec s w l hwl 0
      refine ⟨?_, ?_, ?_, ?_, ?_⟩
      · intro c hc; cases hc
      · intro c hc; cases hc
      · intro _ hcontra; exact absurd hltw hcontra
      · intro _ _
        rw [hufr]
        exact ⟨by simpa using hspec.1, hspec.2.1⟩
      · intro i
        rw [hufr]
        exact hspec.2.2 i
    · rw [if_pos (by simpa using hltw)] at hufr
      have hspec := finish_round_scoring_spec s l w (Ne.symm hwl) 0
      refine ⟨?_, ?_, ?_, ?_, ?_⟩
      · intro c hc; cases hc
      · intro c hc; cases hc
      · intro _ _
        rw [hufr]
        exact ⟨by simpa using hspec.1, hspec.2.1⟩
      · intro _ hcontra; exact absurd hcontra hltw
      · intro i
        rw [hufr]
        exact hspec.2.2 i
  · have hufr : update_finish_round s last_trick =
        if closer = w then finish_round_scoring s l w 0
        else finish_round_scoring s w l 0 := by
      unfold update_finish_round
      rw [hup, hcl]
      dsimp only
      rw [if_pos hlt, if_pos hex]
    by_cases hcw : closer = w
    · rw [if_pos hcw] at hufr
      have hspec := finish_round_scoring_spec s l w (Ne.symm hwl) 0
      refine ⟨?_, ?_, ?_, ?_, ?_⟩
      · intro c hc _
        rw [hufr]
        exact ⟨by simpa using hspec.1, hspec.2.1⟩
      · intro c hc hcne
        cases hc
        exact absurd hcw hcne
      · intro hcontra _; cases hcontra
      · intro hcontra _; cases hcontra
      · intro i
        rw [hufr]
        exact hspec.2.2 i
    · rw [if_neg hcw] at hufr
      have hspec := finish_round_scoring_spec s w l hwl 0
      refine ⟨?_, ?_, ?_, ?_, ?_⟩
      · intro c hc hcw2
        cases hc
        exact absurd hcw2 hcw
      · intro c hc _
        rw [hufr]
        exact ⟨by simpa using hspec.1, hspec.2.1⟩
      · intro hcontra _; cases hcontra
      · intro hcontra _; cases hcontra
      · intro i
        rw [hufr]
        exact hspec.2.2 i

theorem c2_witness :
    ((update_finish_round exhaustState false).player true).points =
        ((exhaustState.player true).points + 3) % 256 ∧
      ((update_finish_round exhaustState false).player false).points =
        (exhaustState.player false).points :=
  (c2_exhaustion_amended exhaustState false false true 21 5 (by decide) (by decide)
    (Or.inl (by decide))).1 false rfl rfl

/-- C2 counterexample: at `exhaustState` both hands are empty, the raw-points
winner is player 0 with 21 < 66 points, and player 0 also closed the talon;
the claim says the closing winner keeps the win with 10 bonus points, but the
code awards the round to player 1 (the closer forfeits). -/
theorem c2_claim_false :
    exhaustState.closed_talon = some false ∧
    update_points exhaustState = ((false, 21), (true, 5)) ∧
    ((update_finish_round exhaustState false).player true).points = 3 ∧
    ((update_finish_round exhaustState false).player false).points = 0 := by
  decide

theorem draw_card_err (s s' : SchnapsenDuo) (e : PlayerError)
    (h : draw_card s = .err s' e) : e = .CantTakeCardDeckEmpty ∧ s' = s := by
  unfold draw_card at h
  split at h
  · cases h; exact ⟨rfl, rfl⟩
  · split at h <;> cases h

theorem draw_card_cases (s : SchnapsenDuo) :
    (s.deck = [] ∧ draw_card s = .err s .CantTakeCardDeckEmpty) ∨
      (∃ c, s.deck.getLast? = some c ∧
        draw_card s = .ok { s with deck := s.deck.dropLast } c) := by
  by_cases hd : s.deck = []
  · exact Or.inl ⟨hd, by simp [draw_card, hd]⟩
  · refine Or.inr ⟨s.deck.getLast hd, ?_, ?_⟩
    · exact List.getLast?_eq_getLast s.deck hd
    · simp [draw_card, hd, List.getLast?_eq_getLast s.deck hd]

theorem take_trump_eq (s : SchnapsenDuo) (p : Bool) (t : Card)
    (htr : s.trump = some t) :
    take_trump s p = .ok { s with trump := none, taken_trump := some (p, t) } t := by
  simp [take_trump, htr]

/-- Every error of `draw_card_after_trick` is one of its three own error
returns (the recursion produces no others). -/
theorem draw_err_set (fuel : Nat) :
    ∀ (s : SchnapsenDuo) (p : Bool) (s' : SchnapsenDuo) (e : PlayerError),
      draw_card_after_trick fuel s p = .err s' e →
        e = .CantTakeCardHaveAlreadyFive ∨ e = .CantTakeCardDeckEmpty ∨
          e = .TalonAlreadyClosed := by
  induction fuel with
  | zero => intro s p s' e h; cases h
  | succ n ih =>
    intro s p s' e h
    simp only [draw_card_after_trick] at h
    split at h
    · cases h; exact Or.inl rfl
    · split at h
      · cases h; exact Or.inr (Or.inl rfl)
      · split at h
        · cases h; exact Or.inr (Or.inr rfl)
        · rcases draw_card_cases s with ⟨hd, hdc⟩ | ⟨c, hlast, hdc⟩
          · rw [hdc] at h
            dsimp only at h
            have htr : ∃ t, s.trump = some t := by
              rcases htr0 : s.trump with _ | t
              · rename_i hne _
                exact absurd htr0 hne
              · exact ⟨t, rfl⟩
            obtain ⟨t, htr⟩ := htr
            rw [take_trump_eq s p t htr] at h
            dsimp only at h
            split at h
            · -- recursion
              split at h
              · cases h
              · cases h; rename_i hrec; exact ih _ _ _ _ hrec
              · cases h
            · split at h <;> cases h
          · rw [hdc] at h
            dsimp only at h
            split at h
            · split at h
              · cases h
              · cases h; rename_i hrec; exact ih _ _ _ _ hrec
              · cases h
            · split at h <;> cases h

theorem swap_to_no_err (s : SchnapsenDuo) (p : Bool) :
    ∀ s' e, (match swap_to s p with
      | none => (RRes.panic : RRes Unit)
      | some s3 => .ok s3 ()) ≠ .err s' e := by
  intro s' e
  rcases swap_to s p with _ | s3 <;> simp

/-- Every error of `handle_trick` comes from `draw_card_after_trick`. -/
theorem handle_trick_err_set (fuel : Nat) (s s' : SchnapsenDuo) (e : PlayerError)
    (h : handle_trick fuel s = .err s' e) :
    e = .CantTakeCardHaveAlreadyFive ∨ e = .CantTakeCardDeckEmpty ∨
      e = .TalonAlreadyClosed := by
  unfold handle_trick at h
  split at h
  · cases h
  · dsimp only at h
    split at h
    · split at h
      · cases h
      · cases h; rename_i hrec; exact draw_err_set fuel _ _ _ _ hrec
      · cases h
    · split at h <;> cases h

/-- When the preconditions of `play_card` hold, any error comes out of the
trick-resolution drawing. -/
theorem play_card_late_err (fuel : Nat) (s : SchnapsenDuo) (p : Bool) (card : Card)
    (a : Bool) (s' : SchnapsenDuo) (e : PlayerError) (hact : s.active = some a)
    (hid : (s.player a).id = (s.player p).id)
    (hmem : card ∈ (s.player p).playable_cards)
    (h : play_card fuel s p card = .err s' e) :
    e = .CantTakeCardHaveAlreadyFive ∨ e = .CantTakeCardDeckEmpty ∨
      e = .TalonAlreadyClosed := by
  unfold play_card at h
  rw [hact] at h
  dsimp only at h
  rw [if_neg (not_not_intro hid), if_neg (not_not_intro hmem)] at h
  split at h
  · exact handle_trick_err_set fuel _ _ _ h
  · split at h
    · cases h
    · split at h <;> cases h

/-- C3 (amended): `play_card(p, c)` fails with `CantPlayCard(c)` exactly when
`p` is the active player (by id) and `c` is not among `p`'s stored
`playable_cards`.  When `p` is not active the call fails with
`PlayerNotActive` regardless of `c`; when `p` is active and
`c ∈ playable_cards(p)` the call never fails with `CantPlayCard`, though the
ensuing trick resolution may fail for other reasons. -/
theorem c3_play_card_amended (fuel : Nat) (s : SchnapsenDuo) (p : Bool) (card : Card) :
    (play_card fuel s p card).errOf = some (.CantPlayCard card) ↔
      ((∃ a, s.active = some a ∧ (s.player a).id = (s.player p).id) ∧
        card ∉ (s.player p).playable_cards) := by
  rcases hact : s.active with _ | a
  · simp [play_card, hact, RRes.errOf]
  · by_cases hid : (s.player a).id = (s.player p).id
    · by_cases hmem : card ∈ (s.player p).playable_cards
      · apply iff_of_false
        · intro hl
          rcases hres : play_card fuel s p card with ⟨s1, v1⟩ | ⟨s1, e1⟩ | _
          · rw [hres] at hl
            simp [RRes.errOf] at hl
          · rw [hres] at hl
            simp only [RRes.errOf, Option.some.injEq] at hl
            rcases play_card_late_err fuel s p card a s1 e1 hact hid hmem hres with
              h1 | h1 | h1 <;> rw [h1] at hl <;> cases hl
          · rw [hres] at hl
            simp [RRes.errOf] at hl
        · intro hr
          exact absurd hmem hr.2
      · have hlhs : play_card fuel s p card = .err s (.CantPlayCard card) := by
          unfold play_card
          rw [hact]
          dsimp only
          rw [if_neg (not_not_intro hid), if_pos hmem]
        exact iff_of_true (by simp [hlhs, RRes.errOf]) ⟨⟨a, rfl, hid⟩, hmem⟩
    · have hlhs : play_card fuel s p card = .err s .PlayerNotActive := by
        unfold play_card
        rw [hact]
        dsimp only
        rw [if_pos hid]
      apply iff_of_false
      · simp [hlhs, RRes.errOf]
      · rintro ⟨⟨a1, ha1, hid1⟩, _⟩
        cases ha1
        exact hid hid1

/-- C3 counterexample: with player 0 active, player 1's `play_card` on a card
in `playable_cards(p1)` fails (with `PlayerNotActive`, not success), and on a
card outside `playable_cards(p1)` fails with `PlayerNotActive` rather than
`CantPlayCard`; moreover even the active player's play of a playable card can
fail (here with `CantTakeCardHaveAlreadyFive` out of trick resolution). -/
theorem c3_claim_false :
    ((⟨.King, .Clubs⟩ : Card) ∈ (inactivePlayState.player true).playable_cards ∧
      (play_card 20 inactivePlayState true ⟨.King, .Clubs⟩).errOf =
        some .PlayerNotActive) ∧
    ((⟨.Ten, .Clubs⟩ : Card) ∉ (inactivePlayState.player true).playable_cards ∧
      (play_card 20 inactivePlayState true ⟨.Ten, .Clubs⟩).errOf =
        some .PlayerNotActive) ∧
    ((⟨.Queen, .Clubs⟩ : Card) ∈ (lateErrState.player false).playable_cards ∧
      lateErrState.active = some false ∧
      (play_card 20 lateErrState false ⟨.Queen, .Clubs⟩).errOf =
        some .CantTakeCardHaveAlreadyFive) := by
  decide

@[simp]
theorem modifyPlayer_deck (s : SchnapsenDuo) (i : Bool) (f : Player → Player) :
    (s.modifyPlayer i f).deck = s.deck := by cases i <;> rfl

@[simp]
theorem modifyPlayer_active (s : SchnapsenDuo) (i : Bool) (f : Player → Player) :
    (s.modifyPlayer i f).active = s.active := by cases i <;> rfl

@[simp]
theorem modifyPlayer_trump (s : SchnapsenDuo) (i : Bool) (f : Player → Player) :
    (s.modifyPlayer i f).trump = s.trump := by cases i <;> rfl

@[simp]
theorem modifyPlayer_taken (s : SchnapsenDuo) (i : Bool) (f : Player → Player) :
    (s.modifyPlayer i f).taken_trump = s.taken_trump := by cases i <;> rfl

@[simp]
theorem modifyPlayer_closed (s : SchnapsenDuo) (i : Bool) (f : Player → Player) :
    (s.modifyPlayer i f).closed_talon = s.closed_talon := by cases i <;> rfl

@[simp]
theorem modifyPlayer_stack (s : SchnapsenDuo) (i : Bool) (f : Player → Player) :
    (s.modifyPlayer i f).stack = s.stack := by cases i <;> rfl

/-- Under the guards established before the recursive call (open talon,
face-up trump, hand below five), `draw_card_after_trick` never returns an
error. -/
theorem draw_guarded_no_err (fuel : Nat) :
    ∀ (s : SchnapsenDuo) (p : Bool), s.closed_talon = none →
      s.trump.isSome = true → (s.player p).cards.length < 5 →
      ∀ s' e, draw_card_after_trick fuel s p ≠ .err s' e := by
  induction fuel with
  | zero => intro s p _ _ _ s' e h; cases h
  | succ n ih =>
    intro s p hcl htr hlen s' e h
    simp only [draw_card_after_trick] at h
    rw [if_neg (by omega)] at h
    rw [if_neg (by rcases hx : s.trump with _ | t; · rw [hx] at htr; cases htr
                   · simp [hx])] at h
    rw [if_neg (by simp [hcl])] at h
    rcases draw_card_cases s with ⟨hd, hdc⟩ | ⟨c, hlast, hdc⟩
    · rw [hdc] at h
      dsimp only at h
      obtain ⟨t, htrt⟩ := Option.isSome_iff_exists.mp htr
      rw [take_trump_eq s p t htrt] at h
      dsimp only at h
      rw [if_neg (by simp)] at h
      split at h <;> cases h
    · rw [hdc] at h
      dsimp only at h
      split at h
      · rename_i hcond
        split at h
        · cases h
        · cases h
          rename_i heq
          exact ih _ _ (by simp [hcl]) hcond.2 hcond.1 _ _ heq
        · cases h
      · split at h <;> cases h

/-- `draw_card_after_trick` is atomic on error: every `Err` is returned before
any mutation. -/
theorem draw_err_atomic (fuel : Nat) (s : SchnapsenDuo) (p : Bool)
    (s' : SchnapsenDuo) (e : PlayerError)
    (h : draw_card_after_trick fuel s p = .err s' e) : s' = s := by
  cases fuel with
  | zero => cases h
  | succ n =>
    simp only [draw_card_after_trick] at h
    split at h
    · cases h; rfl
    · split at h
      · cases h; rfl
      · split at h
        · cases h; rfl
        · exfalso
          rename_i hlen5 htrne hclne
          rcases draw_card_cases s with ⟨hd, hdc⟩ | ⟨c, hlast, hdc⟩
          · rw [hdc] at h
            dsimp only at h
            have htr : ∃ t, s.trump = some t := by
              rcases htr0 : s.trump with _ | t
              · exact absurd htr0 htrne
              · exact ⟨t, rfl⟩
            obtain ⟨t, htrt⟩ := htr
            rw [take_trump_eq s p t htrt] at h
            dsimp only at h
            rw [if_neg (by simp)] at h
            split at h <;> cases h
          · rw [hdc] at h
            dsimp only at h
            split at h
            · rename_i hcond
              split at h
              · cases h
              · cases h
                rename_i heq
                exact draw_guarded_no_err n _ _
                  (by simpa using Option.not_isSome_iff_eq_none.mp hclne)
                  hcond.2 hcond.1 _ _ heq
              · cases h
            · split at h <;> cases h

/-- C9 (amended): every rule-engine command except `play_card` leaves the
state unchanged whenever it returns an error, and `play_card` does so for its
own precondition errors (`PlayerNotActive`, `CantPlayCard`); an error
propagated out of trick resolution, however, is returned after the trick has
already been resolved, so the state may be modified. -/
theorem c9_error_atomicity :
    (∀ s p s' e, close_talon s p = .err s' e → s' = s) ∧
    (∀ s p k s' e, cutt_deck s p k = .err s' e → s' = s) ∧
    (∀ s p i s' e, take_cards_til s p i = .err s' e → s' = s) ∧
    (∀ s p c s' e, swap_trump s p c = .err s' e → s' = s) ∧
    (∀ s p pr s' e, announce_20 s p pr = .err s' e → s' = s) ∧
    (∀ s p s' e, announce_40 s p = .err s' e → s' = s) ∧
    (∀ s p s' e, set_active_player s p = .err s' e → s' = s) ∧
    (∀ s s' e, distribute_cards s = .err s' e → s' = s) ∧
    (∀ fuel s p s' e, draw_card_after_trick fuel s p = .err s' e → s' = s) ∧
    (∀ fuel s p c s' e, play_card fuel s p c = .err s' e →
      e = .PlayerNotActive ∨ e = .CantPlayCard c → s' = s) := by
  refine ⟨?_, ?_, ?_, ?_, ?_, ?_, ?_, ?_, ?_, ?_⟩
  · intro s p s' e h
    unfold close_talon at h
    split at h
    · cases h; rfl
    · split at h
      · cases h; rfl
      · split at h
        · cases h; rfl
        · cases h
  · intro s p k s' e h
    unfold cutt_deck at h
    split at h
    · cases h
    · split at h
      · cases h; rfl
      · cases h
  · intro s p i s' e h
    unfold take_cards_til at h
    split at h
    · cases h; rfl
    · split at h
      · cases h; rfl
      · cases h
  · intro s p c s' e h
    unfold swap_trump at h
    split at h
    · split at h
      · cases h; rfl
      · split at h <;> cases h
    · cases h; rfl
  · intro s p pr s' e h
    simp only [announce_20] at h
    split at h
    · cases h; rfl
    · cases h
  · intro s p s' e h
    unfold announce_40 at h
    split at h
    · cases h
    · cases h; rfl
    · cases h
  · intro s p s' e h
    unfold set_active_player at h
    split at h
    · cases h; rfl
    · cases h
  · intro s s' e h
    unfold distribute_cards at h
    rcases hact : s.active with _ | a
    · rw [hact] at h
      cases h
      rfl
    · rw [hact] at h
      dsimp only at h
      split at h
      · cases h
      · split at h
        · cases h
        · split at h
          · cases h
          · split at h
            · cases h
            · split at h
              · cases h
              · split at h
                · cases h
                · split at h
                  · cases h
                  · cases h
  · intro fuel s p s' e h
    exact draw_err_atomic fuel s p s' e h
  · intro fuel s p c s' e h he
    unfold play_card at h
    split at h
    · cases h; rfl
    · split at h
      · cases h; rfl
      · split at h
        · cases h; rfl
        · exfalso
          dsimp only at h
          split at h
          · rcases handle_trick_err_set _ _ _ _ h with h1 | h1 | h1 <;>
              rcases he with he | he <;> rw [h1] at he <;> cases he
          · split at h
            · cases h
            · split at h <;> cases h

theorem c9_witness : inactivePlayState = inactivePlayState :=
  c9_error_atomicity.2.2.2.2.2.2.2.2.2 20 inactivePlayState true ⟨.King, .Clubs⟩
    inactivePlayState .PlayerNotActive (by decide) (Or.inl rfl)

/-- C9 counterexample: at `lateErrState` the active player's legal play
returns `Err(CantTakeCardHaveAlreadyFive)`, yet the match state has already
changed (the card left the hand, the stack was consumed and the trick was
credited), refuting "if the command returns Err then the entire match state
is unchanged". -/
theorem c9_claim_false :
    (play_card 20 lateErrState false ⟨.Queen, .Clubs⟩).errOf =
      some .CantTakeCardHaveAlreadyFive ∧
    (play_card 20 lateErrState false ⟨.Queen, .Clubs⟩).errState ≠
      some lateErrState := by
  decide

theorem bin_search_ok (keys : List Nat) (target : Nat) :
    ∀ (fuel left right i : Nat), right ≤ keys.length →
      bin_search keys target fuel left right = .inl i →
      i < keys.length ∧ keys.getD i 0 = target := by
  intro fuel
  induction fuel with
  | zero => intro left right i _ h; cases h
  | succ n ih =>
    intro left right i hr h
    simp only [bin_search] at h
    split at h
    · rename_i hlr
      split at h
      · exact ih _ _ _ hr h
      · split at h
        · exact ih _ _ _ (by omega) h
        · cases h
          rename_i hk1 hk2
          exact ⟨by omega, by omega⟩
    · cases h

theorem findIdx_spec {α : Type} (p : α → Bool) (d : α) :
    ∀ (l : List α) (i : Nat), i < l.length → p (l.getD i d) = true →
      (∀ j, j < i → p (l.getD j d) = false) → l.findIdx p = i := by
  intro l
  induction l with
  | nil => intro i hi; simp at hi
  | cons x xs ih =>
    intro i hi hp hprev
    cases i with
    | zero =>
      simp only [List.getD_cons_zero] at hp
      simp [List.findIdx_cons, hp]
    | succ n =>
      have hx : p x = false := by
        have := hprev 0 (by omega)
        simpa using this
      simp only [List.getD_cons_succ] at hp
      simp only [List.findIdx_cons, hx, cond_false]
      have hrec : xs.findIdx p = n :=
        ih n (by simpa using hi) hp
          (fun j hj => by simpa using hprev (j + 1) (by omega))
      omega

theorem findIdx?_shift {α : Type} (p : α → Bool) :
    ∀ (l : List α) (i : Nat),
      l.findIdx? p i = if l.any p then some (l.findIdx p + i) else none := by
  intro l
  induction l with
  | nil => intro i; simp
  | cons x xs ih =>
    intro i
    by_cases hx : p x = true
    · simp [List.findIdx?_cons, List.findIdx_cons, hx]
    · rw [Bool.not_eq_true] at hx
      simp only [List.findIdx?_cons, List.findIdx_cons, List.any_cons, hx, cond_false,
        ih (i + 1)]
      simp only [Bool.false_eq_true, if_false, Bool.false_or]
      by_cases hxs : xs.any p = true
      · simp only [hxs, if_true]
        congr 1
        omega
      · simp [hxs]

theorem findIdx?_eq_ite {α : Type} (p : α → Bool) (l : List α) :
    l.findIdx? p = if l.any p then some (l.findIdx p) else none := by
  rw [show l.findIdx? p = l.findIdx? p 0 from rfl, findIdx?_shift]
  simp

/-- The suffix selection of `events_since` over a strictly
timestamp-increasing filtered list: the suffix from the first entry with
`timestamp ≥ t` when one exists, and the **whole** list otherwise. -/
theorem events_since_filtered_eq {α : Type}
    (ue : List (Option String × TimedEvent α)) (t : Nat)
    (hsort : ue.Pairwise (fun x y => x.2.timestamp < y.2.timestamp)) :
    events_since_filtered ue t =
      if ue.any (fun e => t ≤ e.2.timestamp) then
        (ue.drop (ue.findIdx (fun e => t ≤ e.2.timestamp))).map (fun x => x.2)
      else ue.map (fun x => x.2) := by
  unfold events_since_filtered
  dsimp only
  rcases hbs : bin_search (ue.map (fun e => e.2.timestamp)) t (ue.length + 1) 0
      ue.length with i | j
  · dsimp only
    obtain ⟨hi, hk⟩ :=
      bin_search_ok (ue.map (fun e => e.2.timestamp)) t (ue.length + 1) 0 ue.length i
        (by simp) hbs
    rw [List.length_map] at hi
    have hts : (ue.get ⟨i, hi⟩).2.timestamp = t := by
      rw [List.getD_eq_getElem _ _ (by simpa using hi), List.getElem_map] at hk
      simpa [List.get_eq_getElem] using hk
    have hgetd : ue.getD i (ue.get ⟨i, hi⟩) = ue.get ⟨i, hi⟩ := by
      rw [List.getD_eq_getElem _ _ hi]
      simp [List.get_eq_getElem]
    have hFi : decide (t ≤ (ue.get ⟨i, hi⟩).2.timestamp) = true := by
      rw [hts]
      simp
    have hany : ue.any (fun e => t ≤ e.2.timestamp) = true :=
      List.any_eq_true.mpr ⟨ue.get ⟨i, hi⟩, List.get_mem ue i hi, hFi⟩
    have hfind : ue.findIdx (fun e => decide (t ≤ e.2.timestamp)) = i := by
      refine findIdx_spec _ (ue.get ⟨i, hi⟩) ue i hi (by rw [hgetd]; exact hFi) ?_
      intro j hj
      have hjlen : j < ue.length := by omega
      have hgetdj : ue.getD j (ue.get ⟨i, hi⟩) = ue.get ⟨j, hjlen⟩ := by
        rw [List.getD_eq_getElem _ _ hjlen]
        simp [List.get_eq_getElem]
      rw [hgetdj]
      have hlt : (ue.get ⟨j, hjlen⟩).2.timestamp < (ue.get ⟨i, hi⟩).2.timestamp :=
        List.pairwise_iff_get.mp hsort ⟨j, hjlen⟩ ⟨i, hi⟩ (by simpa using hj)
      rw [hts] at hlt
      simp only [decide_eq_false_iff_not, not_le]
      exact hlt
    rw [if_pos hany, hfind]
  · dsimp only
    rw [findIdx?_eq_ite]
    by_cases hany : ue.any (fun e => t ≤ e.2.timestamp) = true
    · rw [if_pos hany, if_pos hany]
    · rw [if_neg hany, if_neg hany]
      simp

/-- C8 (amended): `events_since(t, viewer)` filters the journal to the
viewer's scope; with strictly increasing timestamps, if some visible entry
has `timestamp ≥ t` the result is exactly the suffix from the first such
entry, but when **no** visible entry has `timestamp ≥ t` the result is the
**entire** visible journal (the index falls back to 0), not the empty list. -/
theorem c8_events_since_amended {α : Type} (lg : EventLogger α) (t : Nat)
    (u : Option String)
    (hsort : lg.events.Pairwise (fun x y => x.2.timestamp < y.2.timestamp)) :
    events_since lg t u =
      if (lg.events.filter (fun te => te.1 = none ∨ te.1 = u)).any
          (fun e => t ≤ e.2.timestamp) then
        ((lg.events.filter (fun te => te.1 = none ∨ te.1 = u)).drop
          ((lg.events.filter (fun te => te.1 = none ∨ te.1 = u)).findIdx
            (fun e => t ≤ e.2.timestamp))).map (fun x => x.2)
      else (lg.events.filter (fun te => te.1 = none ∨ te.1 = u)).map (fun x => x.2) := by
  unfold events_since
  exact events_since_filtered_eq _ t
    (List.Pairwise.sublist (List.filter_sublist _) hsort)

theorem c8_witness : events_since smallLog 3 none = [⟨(), 5⟩] := by
  rw [c8_events_since_amended smallLog 3 none (List.pairwise_singleton _ _)]
  decide

/-- C8 counterexample: in a journal whose only (public) entry has timestamp
5, `events_since(10, viewer)` returns that entry — the whole visible journal
— although no visible entry has `timestamp ≥ 10`, refuting "the result is
empty". -/
theorem c8_claim_false :
    smallLog.events.all (fun e => e.2.timestamp < 10) = true ∧
    events_since smallLog 10 none = [⟨(), 5⟩] ∧
    events_since smallLog 10 none ≠ [] := by
  decide

theorem all_cards_unfold (s : SchnapsenDuo) :
    all_cards s = ↑s.p0.cards + ↑s.p1.cards + ↑s.deck + ↑s.stack +
      ↑s.trump.toList + ↑(s.p0.tricks.flatMap (fun t => [t.1, t.2])) +
      ↑(s.p1.tricks.flatMap (fun t => [t.1, t.2])) := rfl

theorem flat_len (l : List (Card × Card)) :
    (l.flatMap (fun t => [t.1, t.2])).length = 2 * l.length := by
  induction l with
  | nil => rfl
  | cons x xs ih => simp [ih]; omega

theorem cons_sum_eq_card (s : SchnapsenDuo) :
    cons_sum s = Multiset.card (all_cards s) := by
  rw [all_cards_unfold]
  simp only [Multiset.card_add, Multiset.coe_card, flat_len]
  unfold cons_sum
  simp only [player_false, player_true]
  rcases htr : s.trump with _ | t <;> simp [htr] <;> omega

theorem hand_nodup (s : SchnapsenDuo)
    (hinv : all_cards s = (canonical_deck : Multiset Card)) (p : Bool) :
    (s.player p).cards.Nodup := by
  have hnd : (all_cards s).Nodup := by
    rw [hinv]
    exact Multiset.coe_nodup.mpr (by decide)
  have hle : (↑(s.player p).cards : Multiset Card) ≤ all_cards s := by
    cases p with
    | false =>
      refine Multiset.le_iff_exists_add.mpr
        ⟨↑s.p1.cards + ↑s.deck + ↑s.stack + ↑s.trump.toList +
          ↑(s.p0.tricks.flatMap (fun t => [t.1, t.2])) +
          ↑(s.p1.tricks.flatMap (fun t => [t.1, t.2])), ?_⟩
      rw [all_cards_unfold]
      simp only [player_false]
      abel
    | true =>
      refine Multiset.le_iff_exists_add.mpr
        ⟨↑s.p0.cards + ↑s.deck + ↑s.stack + ↑s.trump.toList +
          ↑(s.p0.tricks.flatMap (fun t => [t.1, t.2])) +
          ↑(s.p1.tricks.flatMap (fun t => [t.1, t.2])), ?_⟩
      rw [all_cards_unfold]
      simp only [player_true]
      abel
  exact Multiset.coe_nodup.mp (Multiset.nodup_of_le hle hnd)

theorem step1_sub (s : SchnapsenDuo) (p : Bool) (l : List Card)
    (h : find_playable_step1 s p = some l) : ∀ c ∈ l, c ∈ (s.player p).cards := by
  unfold find_playable_step1 at h
  dsimp only at h
  split at h
  · rcases hts : trump_suit_info s with _ | ts <;> rw [hts] at h <;>
      rcases hh : s.stack.head? with _ | lead <;> rw [hh] at h <;> dsimp only at h
    · cases h
    · cases h
    · cases h
    · split at h
      · cases h
        intro c hc
        exact (List.mem_filter.mp hc).1
      · cases h
        intro c hc
        exact (List.mem_filter.mp hc).1
  · cases h
    intro c hc
    exact hc

theorem find_playable_sub (s : SchnapsenDuo) (p : Bool) (pl : List Card)
    (h : find_playable_cards s p = some pl) : ∀ c ∈ pl, c ∈ (s.player p).cards := by
  unfold find_playable_cards at h
  rcases h1 : find_playable_step1 s p with _ | playable1 <;> rw [h1] at h
  · cases h
  · dsimp only at h
    have hsub1 := step1_sub s p playable1 h1
    generalize hply2 : (if playable1 = [] then (s.player p).cards else playable1) =
      playable2 at h
    have hsub2 : ∀ c ∈ playable2, c ∈ (s.player p).cards := by
      rw [← hply2]
      split
      · intro c hc; exact hc
      · intro c hc; exact hsub1 c hc
    split at h
    · rcases ha : s.active with _ | a <;> rw [ha] at h <;>
        rcases hh : s.stack.head? with _ | lead <;> rw [hh] at h <;> dsimp only at h
      · cases h
      · cases h
      · cases h
      · split at h
        · cases h
        · split at h
          · cases h
            intro c hc
            exact hsub2 _ (List.mem_filter.mp hc).1
          · cases h
            exact hsub2
    · cases h
      exact hsub2

theorem all_cards_modify_props (s : SchnapsenDuo) (i : Bool) (f : Player → Player)
    (hc : ∀ pl, (f pl).cards = pl.cards) (ht : ∀ pl, (f pl).tricks = pl.tricks) :
    all_cards (s.modifyPlayer i f) = all_cards s := by
  cases i <;> simp [all_cards_unfold, hc, ht]

theorem inv_modify_props (s : SchnapsenDuo) (i : Bool) (f : Player → Player)
    (hc : ∀ pl, (f pl).cards = pl.cards)
    (hpc : ∀ pl, (f pl).playable_cards = pl.playable_cards)
    (ht : ∀ pl, (f pl).tricks = pl.tricks)
    (hinv : engine_inv s) : engine_inv (s.modifyPlayer i f) := by
  refine ⟨(all_cards_modify_props s i f hc ht).trans hinv.1, ?_, by simpa using hinv.2.2⟩
  cases i
  · refine ⟨fun c hmem => ?_, fun c hmem => ?_⟩
    · have h1 : ((s.modifyPlayer false f).player false) = f s.p0 := rfl
      rw [h1, hpc] at hmem
      rw [h1, hc]
      exact hinv.2.1.1 c hmem
    · have h1 : ((s.modifyPlayer false f).player true) = s.p1 := rfl
      rw [h1] at hmem ⊢
      exact hinv.2.1.2 c hmem
  · refine ⟨fun c hmem => ?_, fun c hmem => ?_⟩
    · have h1 : ((s.modifyPlayer true f).player false) = s.p0 := rfl
      rw [h1] at hmem ⊢
      exact hinv.2.1.1 c hmem
    · have h1 : ((s.modifyPlayer true f).player true) = f s.p1 := rfl
      rw [h1, hpc] at hmem
      rw [h1, hc]
      exact hinv.2.1.2 c hmem

theorem inv_update_playable (s : SchnapsenDuo) (p : Bool) (s' : SchnapsenDuo)
    (h : update_playable_cards s p = some s') (hinv : engine_inv s) :
    engine_inv s' := by
  unfold update_playable_cards at h
  rcases hfp : find_playable_cards s p with _ | pl <;> rw [hfp] at h
  · cases h
  · cases h
    try dsimp only
    have hsub := find_playable_sub s p pl hfp
    refine ⟨(all_cards_modify_props s p (fun pl2 => { pl2 with playable_cards := pl })
      (fun _ => rfl) (fun _ => rfl)).trans hinv.1, ?_, by simpa using hinv.2.2⟩
    cases p
    · refine ⟨fun c hmem => ?_, fun c hmem => ?_⟩
      · have h1 : (((s.modifyPlayer false (fun pl2 => { pl2 with playable_cards := pl })).player
            false)).playable_cards = pl := rfl
        rw [h1] at hmem
        exact hsub c hmem
      · exact hinv.2.1.2 c hmem
    · refine ⟨fun c hmem => ?_, fun c hmem => ?_⟩
      · exact hinv.2.1.1 c hmem
      · have h1 : (((s.modifyPlayer true (fun pl2 => { pl2 with playable_cards := pl })).player
            true)).playable_cards = pl := rfl
        rw [h1] at hmem
        exact hsub c hmem

theorem inv_update_announcable (s : SchnapsenDuo) (p : Bool) (s' : SchnapsenDuo)
    (h : update_announcable_props s p = some s') (hinv : engine_inv s) :
    engine_inv s' := by
  unfold update_announcable_props at h
  rcases hna : notify_announcable_props s p with _ | ann <;> rw [hna] at h
  · cases h
  · cases h
    try dsimp only
    exact inv_modify_props s p _ (fun _ => rfl) (fun _ => rfl) (fun _ => rfl) hinv

theorem inv_update_swap_trump (s : SchnapsenDuo) (p : Bool) (hinv : engine_inv s) :
    engine_inv (update_swap_trump s p) :=
  inv_modify_props s p _ (fun _ => rfl) (fun _ => rfl) (fun _ => rfl) hinv

theorem inv_make_active (s : SchnapsenDuo) (p : Bool) (hinv : engine_inv s) :
    engine_inv (make_active s p) :=
  ⟨hinv.1, hinv.2.1, hinv.2.2⟩

theorem inv_swap_to (s : SchnapsenDuo) (p : Bool) (s' : SchnapsenDuo)
    (h : swap_to s p = some s') (hinv : engine_inv s) : engine_inv s' := by
  unfold swap_to at h
  rcases h1 : update_announcable_props s p with _ | s1 <;> rw [h1] at h
  · cases h
  · dsimp only at h
    have hinv1 := inv_update_announcable s p s1 h1 hinv
    have hinv2 := inv_update_swap_trump s1 p hinv1
    rcases h3 : update_playable_cards (update_swap_trump s1 p) p with _ | s3 <;>
      rw [h3] at h
    · cases h
    · dsimp only at h
      have hinv3 := inv_update_playable _ p s3 h3 hinv2
      rcases hact : s3.active with _ | a <;> rw [hact] at h
      · cases h
        exact hinv3
      · dsimp only at h
        split at h <;> cases h
        · exact hinv3
        · exact inv_make_active s3 p hinv3

theorem inv_set_active (s s' : SchnapsenDuo) (p : Bool)
    (hok : set_active_player s p = .ok s' ()) (hinv : engine_inv s) :
    engine_inv s' := by
  unfold set_active_player at hok
  split at hok
  · cases hok
  · cases hok
    exact inv_make_active s p hinv

theorem inv_cutt (s s' : SchnapsenDuo) (p : Bool) (k : Nat)
    (hok : cutt_deck s p k = .ok s' ()) (hinv : engine_inv s) : engine_inv s' := by
  rcases hact : s.active with _ | a
  · unfold cutt_deck at hok
    rw [hact] at hok
    cases hok
  · rw [cutt_deck_eq s p k a hact] at hok
    split at hok
    · cases hok
    · cases hok
      have hdeck : (↑(s.deck.drop (min k s.deck.length) ++
          s.deck.take (min k s.deck.length)) : Multiset Card) = ↑s.deck :=
        Multiset.coe_eq_coe.mpr (rot_perm _ _)
      refine ⟨?_, hinv.2.1, ?_⟩
      · rw [all_cards_unfold]
        dsimp only
        rw [hdeck]
        exact hinv.1
      · intro htr
        have hlen := (rot_perm s.deck (min k s.deck.length)).length_eq
        have h9 := hinv.2.2 htr
        dsimp only
        omega

theorem inv_close (s s' : SchnapsenDuo) (p : Bool)
    (hok : close_talon s p = .ok s' ()) (hinv : engine_inv s) : engine_inv s' := by
  unfold close_talon at hok
  split at hok
  · cases hok
  · split at hok
    · cases hok
    · split at hok
      · cases hok
      · cases hok
        exact ⟨hinv.1, hinv.2.1, hinv.2.2⟩

theorem inv_ann20 (s s' : SchnapsenDuo) (p : Bool) (pr : Card × Card)
    (a : Announcement) (hok : announce_20 s p pr = .ok s' a) (hinv : engine_inv s) :
    engine_inv s' := by
  obtain ⟨rfl, -⟩ := announce_20_ok_eq s p pr s' a hok
  exact hinv

theorem inv_ann40 (s s' : SchnapsenDuo) (p : Bool) (a : Announcement)
    (hok : announce_40 s p = .ok s' a) (hinv : engine_inv s) : engine_inv s' := by
  unfold announce_40 at hok
  split at hok
  · cases hok
  · cases hok
  · cases hok
    exact hinv

theorem deck_le_20 (s : SchnapsenDuo)
    (hcards : all_cards s = (canonical_deck : Multiset Card)) :
    s.deck.length ≤ 20 := by
  have h1 : cons_sum s = 20 := by
    rw [cons_sum_eq_card, hcards]
    rfl
  unfold cons_sum at h1
  omega

theorem inv_do_cards (s : SchnapsenDuo) (p : Bool) (s' : SchnapsenDuo)
    (h : do_cards s p = some s')
    (hcards : all_cards s = (canonical_deck : Multiset Card))
    (hps : playable_sub s) :
    (all_cards s' = (canonical_deck : Multiset Card) ∧ playable_sub s') ∧
      s'.deck.length + 1 = s.deck.length ∧ s'.trump = s.trump := by
  unfold do_cards at h
  rcases hlast : s.deck.getLast? with _ | c <;> rw [hlast] at h
  · cases h
  · cases h
    have hsplit : s.deck.dropLast ++ [c] = s.deck :=
      List.dropLast_append_getLast? c hlast
    have hlen : s.deck.dropLast.length + 1 = s.deck.length := by
      have := congrArg List.length hsplit
      simpa using this
    have key : (↑s.deck : Multiset Card) = ↑s.deck.dropLast + ↑[c] := by
      rw [Multiset.coe_add, hsplit]
    refine ⟨⟨?_, ?_⟩, by simpa using hlen, by simp⟩
    · rw [← hcards]
      cases p
      · rw [all_cards_unfold, all_cards_unfold]
        simp only [modifyPlayer_false, modifyPlayer_true]
        try dsimp only
        rw [key]
        rw [show (↑(s.p0.cards ++ [c]) : Multiset Card) = ↑s.p0.cards + ↑[c] from
          (Multiset.coe_add _ _).symm]
        abel
      · rw [all_cards_unfold, all_cards_unfold]
        simp only [modifyPlayer_false, modifyPlayer_true]
        try dsimp only
        rw [key]
        rw [show (↑(s.p1.cards ++ [c]) : Multiset Card) = ↑s.p1.cards + ↑[c] from
          (Multiset.coe_add _ _).symm]
        abel
    · cases p
      · exact ⟨fun cx hcx => List.mem_append_left _ (hps.1 cx hcx),
          fun cx hcx => hps.2 cx hcx⟩
      · exact ⟨fun cx hcx => hps.1 cx hcx,
          fun cx hcx => List.mem_append_left _ (hps.2 cx hcx)⟩

theorem inv_deal (n : Nat) : ∀ (s : SchnapsenDuo) (p : Bool) (s' : SchnapsenDuo),
    deal n s p = some s' →
    all_cards s = (canonical_deck : Multiset Card) → playable_sub s →
    (all_cards s' = (canonical_deck : Multiset Card) ∧ playable_sub s') ∧
      s'.deck.length + n = s.deck.length ∧ s'.trump = s.trump := by
  induction n with
  | zero =>
    intro s p s' h hcards hps
    cases h
    exact ⟨⟨hcards, hps⟩, rfl, rfl⟩
  | succ m ih =>
    intro s p s' h hcards hps
    simp only [deal] at h
    rcases hdc : do_cards s p with _ | s1 <;> rw [hdc] at h
    · cases h
    · obtain ⟨⟨hc1, hp1⟩, hlen1, htr1⟩ := inv_do_cards s p s1 hdc hcards hps
      obtain ⟨⟨hc2, hp2⟩, hlen2, htr2⟩ := ih s1 p s' h hc1 hp1
      exact ⟨⟨hc2, hp2⟩, by omega, htr2.trans htr1⟩

theorem inv_refresh_props (s : SchnapsenDuo) (p : Bool) (s' : SchnapsenDuo)
    (h : refresh_props s p = some s') (hinv : engine_inv s) : engine_inv s' := by
  unfold refresh_props at h
  rcases h1 : update_playable_cards s p with _ | s1 <;> rw [h1] at h
  · cases h
  · dsimp only at h
    exact inv_update_announcable _ p s' h
      (inv_update_swap_trump s1 p (inv_update_playable s p s1 h1 hinv))

theorem do_cards_len (s : SchnapsenDuo) (p : Bool) (s' : SchnapsenDuo)
    (h : do_cards s p = some s') :
    s'.deck.length + 1 = s.deck.length ∧ s'.trump = s.trump := by
  unfold do_cards at h
  rcases hlast : s.deck.getLast? with _ | c <;> rw [hlast] at h
  · cases h
  · cases h
    constructor
    · simp only [modifyPlayer_deck]
      try dsimp only
      have hsplit := List.dropLast_append_getLast? c hlast
      have := congrArg List.length hsplit
      simpa using this
    · simp

theorem deal_len (n : Nat) : ∀ (s : SchnapsenDuo) (p : Bool) (s' : SchnapsenDuo),
    deal n s p = some s' → s'.deck.length + n = s.deck.length ∧ s'.trump = s.trump := by
  induction n with
  | zero =>
    intro s p s' h
    cases h
    exact ⟨rfl, rfl⟩
  | succ m ih =>
    intro s p s' h
    simp only [deal] at h
    rcases hdc : do_cards s p with _ | s1 <;> rw [hdc] at h
    · cases h
    · obtain ⟨hl1, ht1⟩ := do_cards_len s p s1 hdc
      obtain ⟨hl2, ht2⟩ := ih s1 p s' h
      exact ⟨by omega, ht2.trans ht1⟩

theorem inv_distribute (s s' : SchnapsenDuo) (hok : distribute_cards s = .ok s' ())
    (hinv : engine_inv s) : engine_inv s' := by
  obtain ⟨hcards, hps, hclause⟩ := hinv
  unfold distribute_cards at hok
  rcases hact : s.active with _ | a <;> rw [hact] at hok
  · cases hok
  · dsimp only at hok
    generalize hfst : (if a = false then false else true) = fst at hok
    rcases h1 : deal 3 s fst with _ | s1 <;> rw [h1] at hok <;> try dsimp only at hok
    · cases hok
    · obtain ⟨⟨hc1, hp1⟩, hlen1, htr1⟩ := inv_deal 3 s fst s1 h1 hcards hps
      rcases h2 : deal 3 s1 (otherIdx fst) with _ | s2 <;> rw [h2] at hok <;>
        try dsimp only at hok
      · cases hok
      · obtain ⟨⟨hc2, hp2⟩, hlen2, htr2⟩ := inv_deal 3 s1 (otherIdx fst) s2 h2 hc1 hp1
        rcases hlast : s2.deck.getLast? with _ | tr <;> rw [hlast] at hok <;>
          try dsimp only at hok
        · cases hok
        · have hsplit : s2.deck.dropLast ++ [tr] = s2.deck :=
            List.dropLast_append_getLast? tr hlast
          have hlen3 : s2.deck.dropLast.length + 1 = s2.deck.length := by
            have := congrArg List.length hsplit
            simpa using this
          rcases h4 : deal 2 { s2 with deck := s2.deck.dropLast, trump := some tr }
              fst with _ | s4 <;> rw [h4] at hok <;> try dsimp only at hok
          · cases hok
          · rcases h5 : deal 2 s4 (otherIdx fst) with _ | s5 <;> rw [h5] at hok <;>
              try dsimp only at hok
            · cases hok
            · -- establish that the deck held at least 11 cards, so the
              -- face-up trump slot was empty before the overwrite
              have hd20 := deck_le_20 s hcards
              have htrnone : s2.trump = none := by
                obtain ⟨hdeal4, -⟩ := deal_len 2 _ fst s4 h4
                obtain ⟨hdeal5, -⟩ := deal_len 2 s4 (otherIdx fst) s5 h5
                by_cases hts : s.trump.isSome = true
                · have h9 := hclause hts
                  dsimp only at hdeal4
                  omega
                · rw [htr2, htr1]
                  exact Option.not_isSome_iff_eq_none.mp (by simpa using hts)
              have key : (↑s2.deck : Multiset Card) = ↑s2.deck.dropLast + ↑[tr] := by
                rw [Multiset.coe_add, hsplit]
              have hc3 : all_cards { s2 with deck := s2.deck.dropLast, trump := some tr } =
                  (canonical_deck : Multiset Card) := by
                rw [← hc2, all_cards_unfold, all_cards_unfold]
                dsimp only
                rw [key, htrnone]
                dsimp only [Option.toList]
                rw [show (↑([tr] : List Card) : Multiset Card) =
                  ↑([] : List Card) + ↑([tr] : List Card) from by simp]
                abel
              have hp3 : playable_sub { s2 with deck := s2.deck.dropLast, trump := some tr } :=
                hp2
              obtain ⟨⟨hc4, hp4⟩, hlen4, htr4⟩ := inv_deal 2 _ fst s4 h4 hc3 hp3
              obtain ⟨⟨hc5, hp5⟩, hlen5, htr5⟩ := inv_deal 2 s4 (otherIdx fst) s5 h5 hc4 hp4
              dsimp only at hlen4 htr4
              have hinv5 : engine_inv s5 := by
                refine ⟨hc5, hp5, fun _ => ?_⟩
                omega
              rcases h6 : refresh_props s5 fst with _ | s6 <;> rw [h6] at hok <;>
                try dsimp only at hok
              · cases hok
              · rcases h7 : refresh_props s6 (otherIdx fst) with _ | s7 <;>
                  rw [h7] at hok <;> try dsimp only at hok
                · cases hok
                · cases hok
                  exact inv_refresh_props s6 (otherIdx fst) s' h7
                    (inv_refresh_props s5 fst s6 h6 hinv5)

theorem inv_take_trump_push (s : SchnapsenDuo) (p : Bool) (t : Card)
    (htr : s.trump = some t) (hinv : engine_inv s) :
    engine_inv (({ s with trump := none, taken_trump := some (p, t) }).modifyPlayer p
      (fun pl => { pl with cards := pl.cards ++ [t] })) := by
  obtain ⟨hcards, hps, -⟩ := hinv
  refine ⟨?_, ?_, fun hts => by simp at hts⟩
  · rw [← hcards]
    cases p
    · rw [all_cards_unfold, all_cards_unfold]
      simp only [modifyPlayer_false, modifyPlayer_true]
      try dsimp only
      rw [htr]
      dsimp only [Option.toList]
      rw [show (↑(s.p0.cards ++ [t]) : Multiset Card) = ↑s.p0.cards + ↑[t] from
        (Multiset.coe_add _ _).symm]
      rw [show (↑([] : List Card) : Multiset Card) = 0 from rfl]
      abel
    · rw [all_cards_unfold, all_cards_unfold]
      simp only [modifyPlayer_false, modifyPlayer_true]
      try dsimp only
      rw [htr]
      dsimp only [Option.toList]
      rw [show (↑(s.p1.cards ++ [t]) : Multiset Card) = ↑s.p1.cards + ↑[t] from
        (Multiset.coe_add _ _).symm]
      rw [show (↑([] : List Card) : Multiset Card) = 0 from rfl]
      abel
  · cases p
    · exact ⟨fun cx hcx => List.mem_append_left _ (hps.1 cx hcx),
        fun cx hcx => hps.2 cx hcx⟩
    · exact ⟨fun cx hcx => hps.1 cx hcx,
        fun cx hcx => List.mem_append_left _ (hps.2 cx hcx)⟩

theorem inv_draw (fuel : Nat) : ∀ (s : SchnapsenDuo) (p : Bool) (s' : SchnapsenDuo)
    (c : Card), draw_card_after_trick fuel s p = .ok s' c → engine_inv s →
      engine_inv s' := by
  induction fuel with
  | zero => intro s p s' c h; cases h
  | succ n ih =>
    intro s p s' c h hinv
    simp only [draw_card_after_trick] at h
    split at h
    · cases h
    · split at h
      · cases h
      · split at h
        · cases h
        · rename_i hlen5 htrne hclne
          rcases draw_card_cases s with ⟨hd, hdc⟩ | ⟨cd, hlast, hdc⟩
          · rw [hdc] at h
            dsimp only at h
            have htr : ∃ t, s.trump = some t := by
              rcases htr0 : s.trump with _ | t
              · exact absurd htr0 htrne
              · exact ⟨t, rfl⟩
            obtain ⟨t, htrt⟩ := htr
            rw [take_trump_eq s p t htrt] at h
            dsimp only at h
            have hinv2 := inv_take_trump_push s p t htrt hinv
            split at h
            · split at h
              · cases h
                rename_i hrec
                exact ih _ _ _ _ hrec hinv2
              · cases h
              · cases h
            · rcases hsw : swap_to _ (otherIdx p) with _ | s3 <;> rw [hsw] at h <;>
                dsimp only at h
              · cases h
              · cases h
                exact inv_swap_to _ (otherIdx p) _ hsw hinv2
          · rw [hdc] at h
            dsimp only at h
            have hdo : do_cards s p =
                some (({ s with deck := s.deck.dropLast }).modifyPlayer p
                  (fun pl => { pl with cards := pl.cards ++ [cd] })) := by
              unfold do_cards
              rw [hlast]
            obtain ⟨⟨hc2, hp2⟩, hlen2, htr2⟩ :=
              inv_do_cards s p _ hdo hinv.1 hinv.2.1
            have hinv2 : engine_inv (({ s with deck := s.deck.dropLast }).modifyPlayer p
                (fun pl => { pl with cards := pl.cards ++ [cd] })) := by
              refine ⟨hc2, hp2, fun hts => ?_⟩
              have h9 := hinv.2.2 (htr2 ▸ hts)
              omega
            split at h
            · split at h
              · cases h
                rename_i hrec
                exact ih _ _ _ _ hrec hinv2
              · cases h
              · cases h
            · rcases hsw : swap_to _ (otherIdx p) with _ | s3 <;> rw [hsw] at h <;>
                dsimp only at h
              · cases h
              · cases h
                exact inv_swap_to _ (otherIdx p) _ hsw hinv2

theorem ufr_id (s : SchnapsenDuo) (lt : Bool) (h : ¬round_ends s) :
    update_finish_round s lt = s := by
  unfold round_ends at h
  rw [not_or] at h
  obtain ⟨h1, h2⟩ := h
  unfold update_finish_round
  dsimp only
  rw [if_pos (Nat.lt_of_not_le h1), if_neg h2]

theorem list_len2 {l : List Card} {f lc : Card} (hh : l.head? = some f)
    (hl : l.getLast? = some lc) (hlen : l.length = 2) : l = [f, lc] := by
  rcases l with _ | ⟨x, _ | ⟨y, _ | ⟨z, t⟩⟩⟩
  · simp at hlen
  · simp at hlen
  · rw [show ([x, y].head? : Option Card) = some x from rfl] at hh
    rw [show ([x, y].getLast? : Option Card) = some y from rfl] at hl
    cases hh
    cases hl
    rfl
  · simp at hlen

theorem flatMap_snoc (l : List (Card × Card)) (a b : Card) :
    ((l ++ [(a, b)]).flatMap (fun t => [t.1, t.2])) =
      l.flatMap (fun t => [t.1, t.2]) ++ [a, b] := by
  rw [List.flatMap_append]
  rfl

theorem hand_split (l : List Card) (a : Card) (hnd : l.Nodup) (ha : a ∈ l) :
    (↑l : Multiset Card) = ↑(l.filter (fun x => x ≠ a)) + ↑[a] := by
  have hfe : l.filter (fun x => x ≠ a) = l.filter (fun x => x != a) := by
    apply List.filter_congr
    intro x hx
    by_cases hxa : x = a <;> simp [hxa, bne_iff_ne]
  rw [hfe, ← List.Nodup.erase_eq_filter hnd a, ← Multiset.coe_erase]
  have hmem : a ∈ (↑l : Multiset Card) := by exact_mod_cast ha
  conv_lhs => rw [← Multiset.cons_erase hmem]
  rw [Multiset.coe_singleton, add_comm, Multiset.singleton_add]

theorem inv_trick_state (s st : SchnapsenDuo) (w : Bool)
    (h : trick_state s = some (st, w)) (hinv : engine_inv s) : engine_inv st := by
  obtain ⟨hcards, hps, hcl⟩ := hinv
  unfold trick_state at h
  rcases hact : s.active with _ | a <;> rw [hact] at h
  · cases h
  · dsimp only at h
    rcases hh : s.stack.head? with _ | first <;> rw [hh] at h <;> try dsimp only at h
    · cases h
    · rcases hl : s.stack.getLast? with _ | last <;> rw [hl] at h <;>
        try dsimp only at h
      · cases h
      · rcases hw : get_winner s (otherIdx a, first) (a, last) with _ | won <;>
          rw [hw] at h <;> try dsimp only at h
        · cases h
        · split at h
          · rename_i hlen
            cases h
            have hstack : s.stack = [first, last] := list_len2 hh hl hlen
            obtain ⟨wb, wc⟩ := won
            refine ⟨?_, ?_, ?_⟩
            · rw [← hcards]
              cases wb
              · rw [all_cards_unfold, all_cards_unfold]
                simp only [modifyPlayer_false, modifyPlayer_true]
                try dsimp only
                rw [flatMap_snoc, hstack]
                rw [show (↑(s.p0.tricks.flatMap (fun t => [t.1, t.2]) ++
                    [last, first]) : Multiset Card) =
                    ↑(s.p0.tricks.flatMap (fun t => [t.1, t.2])) + ↑[last, first] from
                  (Multiset.coe_add _ _).symm]
                rw [show (↑[last, first] : Multiset Card) = ↑[first, last] from
                  Multiset.coe_eq_coe.mpr (List.Perm.swap first last [])]
                rw [show (↑([] : List Card) : Multiset Card) = 0 from rfl]
                abel
              · rw [all_cards_unfold, all_cards_unfold]
                simp only [modifyPlayer_false, modifyPlayer_true]
                try dsimp only
                rw [flatMap_snoc, hstack]
                rw [show (↑(s.p1.tricks.flatMap (fun t => [t.1, t.2]) ++
                    [last, first]) : Multiset Card) =
                    ↑(s.p1.tricks.flatMap (fun t => [t.1, t.2])) + ↑[last, first] from
                  (Multiset.coe_add _ _).symm]
                rw [show (↑[last, first] : Multiset Card) = ↑[first, last] from
                  Multiset.coe_eq_coe.mpr (List.Perm.swap first last [])]
                rw [show (↑([] : List Card) : Multiset Card) = 0 from rfl]
                abel
            · cases wb
              · exact ⟨fun c hc => hps.1 c hc, fun c hc => hps.2 c hc⟩
              · exact ⟨fun c hc => hps.1 c hc, fun c hc => hps.2 c hc⟩
            · intro hts
              cases wb
              · exact hcl hts
              · exact hcl hts
          · cases h

theorem inv_handle_trick (fuel : Nat) (s s' : SchnapsenDuo)
    (h : handle_trick fuel s = .ok s' ()) (hinv : engine_inv s)
    (hlive : ∀ st w, trick_state s = some (st, w) → ¬round_ends st) :
    engine_inv s' := by
  unfold handle_trick at h
  rcases hts : trick_state s with _ | ⟨st, won⟩ <;> rw [hts] at h
  · cases h
  · dsimp only at h
    have hinvst : engine_inv st := inv_trick_state s st won hts hinv
    rw [ufr_id st won (hlive st won hts)] at h
    split at h
    · rcases hdr : draw_card_after_trick fuel st won with ⟨s4, c4⟩ | ⟨s4, e4⟩ | _ <;>
        rw [hdr] at h <;> try dsimp only at h
      · cases h
        exact inv_draw fuel st won _ c4 hdr hinvst
      · cases h
      · cases h
    · rcases hsw : swap_to st won with _ | s4 <;> rw [hsw] at h <;>
        try dsimp only at h
      · cases h
      · cases h
        exact inv_swap_to st won _ hsw hinvst

theorem inv_move_to_stack (s : SchnapsenDuo) (p : Bool) (card : Card)
    (hinv : engine_inv s) (hcmem : card ∈ (s.player p).cards) :
    engine_inv { s.modifyPlayer p (fun pl =>
        { pl with
          cards := pl.cards.filter (fun x => x ≠ card),
          playable_cards := pl.playable_cards.filter (fun x => x ≠ card) }) with
      stack := (s.modifyPlayer p (fun pl =>
        { pl with
          cards := pl.cards.filter (fun x => x ≠ card),
          playable_cards := pl.playable_cards.filter (fun x => x ≠ card) })).stack
        ++ [card] } := by
  obtain ⟨hcards, hps, hcl⟩ := hinv
  have hnd := hand_nodup s hcards p
  cases p
  · refine ⟨?_, ⟨fun c hc => ?_, fun c hc => ?_⟩, fun hts => hcl hts⟩
    · rw [← hcards]
      rw [all_cards_unfold, all_cards_unfold]
      simp only [modifyPlayer_false, modifyPlayer_true]
      try dsimp only
      rw [show (↑(s.stack ++ [card]) : Multiset Card) = ↑s.stack + ↑[card] from
        (Multiset.coe_add _ _).symm]
      conv_rhs => rw [hand_split s.p0.cards card hnd hcmem]
      abel
    · have hc' : c ∈ s.p0.playable_cards.filter (fun x => x ≠ card) := hc
      rw [List.mem_filter] at hc'
      show c ∈ s.p0.cards.filter (fun x => x ≠ card)
      rw [List.mem_filter]
      exact ⟨hps.1 c hc'.1, hc'.2⟩
    · exact hps.2 c hc
  · refine ⟨?_, ⟨fun c hc => ?_, fun c hc => ?_⟩, fun hts => hcl hts⟩
    · rw [← hcards]
      rw [all_cards_unfold, all_cards_unfold]
      simp only [modifyPlayer_false, modifyPlayer_true]
      try dsimp only
      rw [show (↑(s.stack ++ [card]) : Multiset Card) = ↑s.stack + ↑[card] from
        (Multiset.coe_add _ _).symm]
      conv_rhs => rw [hand_split s.p1.cards card hnd hcmem]
      abel
    · exact hps.1 c hc
    · have hc' : c ∈ s.p1.playable_cards.filter (fun x => x ≠ card) := hc
      rw [List.mem_filter] at hc'
      show c ∈ s.p1.cards.filter (fun x => x ≠ card)
      rw [List.mem_filter]
      exact ⟨hps.2 c hc'.1, hc'.2⟩

theorem inv_play (fuel : Nat) (s s' : SchnapsenDuo) (p : Bool) (card : Card)
    (h : play_card fuel s p card = .ok s' ()) (hlive : play_keeps_round s p card)
    (hinv : engine_inv s) : engine_inv s' := by
  unfold play_card at h
  unfold play_keeps_round at hlive
  rcases hact : s.active with _ | a <;> rw [hact] at h <;> rw [hact] at hlive
  · cases h
  · dsimp only at h
    dsimp only at hlive
    by_cases hid : (s.player a).id = (s.player p).id
    · rw [if_neg (not_not_intro hid)] at h
      rw [if_neg (not_not_intro hid)] at hlive
      by_cases hmem : card ∈ (s.player p).playable_cards
      · rw [if_neg (not_not_intro hmem)] at h
        rw [if_neg (not_not_intro hmem)] at hlive
        try dsimp only at h
        try dsimp only at hlive
        have hcmem : card ∈ (s.player p).cards := by
          cases p
          · exact hinv.2.1.1 card hmem
          · exact hinv.2.1.2 card hmem
        have hinv2 := inv_move_to_stack s p card hinv hcmem
        split at h
        · rename_i hlen
          rw [if_pos hlen] at hlive
          refine inv_handle_trick fuel _ s' h hinv2 ?_
          intro st w hts
          rw [hts] at hlive
          dsimp only at hlive
          exact hlive
        · split at h
          · cases h
          · rename_i s3 hsw
            split at h
            · cases h
            · cases h
              exact inv_swap_to _ (otherIdx a) _ hsw hinv2
      · rw [if_pos hmem] at h
        cases h
    · rw [if_pos hid] at h
      cases h

theorem inv_fresh (deck : List Card) (id0 id1 : String)
    (hperm : deck.Perm canonical_deck) :
    engine_inv (SchnapsenDuo.new deck id0 id1) := by
  refine ⟨?_, ⟨fun c hc => hc, fun c hc => hc⟩, fun hts => by cases hts⟩
  rw [all_cards_unfold]
  show (0 : Multiset Card) + 0 + ↑deck + 0 + 0 + 0 + 0 = ↑canonical_deck
  rw [Multiset.coe_eq_coe.mpr hperm]
  abel

theorem reach_inv (s : SchnapsenDuo) (h : ReachLive s) : engine_inv s := by
  induction h with
  | fresh deck id0 id1 hperm => exact inv_fresh deck id0 id1 hperm
  | set_active h hok ih => exact inv_set_active _ _ _ hok ih
  | cutt h hok ih => exact inv_cutt _ _ _ _ hok ih
  | distribute h hok ih => exact inv_distribute _ _ hok ih
  | close h hok ih => exact inv_close _ _ _ hok ih
  | ann20 h hok ih => exact inv_ann20 _ _ _ _ _ hok ih
  | ann40 h hok ih => exact inv_ann40 _ _ _ _ hok ih
  | draw h hok ih => exact inv_draw _ _ _ _ _ hok ih
  | play h hok hlive ih => exact inv_play _ _ _ _ _ hok hlive ih

/-- C1 (amended): the conservation equation `|hand(p0)| + |hand(p1)| + |deck|
+ |stack| + (1 if trump present else 0) + 2·|tricks(p0)| + 2·|tricks(p1)| =
20` holds in every state reachable from a fresh match by successful commands,
provided `take_cards_til` and `swap_trump` are excluded (both lose cards) and
every `play_card` keeps the round alive (the round-end reset clears the hands
and trick piles). -/
theorem c1_conservation_amended (s : SchnapsenDuo) (h : ReachLive s) :
    cons_sum s = 20 := by
  rw [cons_sum_eq_card, (reach_inv s h).1]
  decide

theorem c1_witness : cons_sum freshMatch = 20 :=
  c1_conservation_amended freshMatch
    (ReachLive.fresh canonical_deck "a" "b" (List.Perm.refl _))

/-- C1 counterexample: from a fresh match (where the conservation sum is 20),
the successful command `take_cards_til(p, 1)` drains a card out of the deck
without adding it to any tracked zone, leaving the sum at 19 — refuting "every
command that succeeds (including take_cards_til) preserves this sum". -/
theorem c1_claim_false :
    cons_sum freshMatch = 20 ∧
    take_cards_til freshMatch false 1 =
      .ok { freshMatch with deck := canonical_deck.drop 1 }
        (canonical_deck.take 1) ∧
    cons_sum { freshMatch with deck := canonical_deck.drop 1 } = 19 := by
  decide
